import Mathlib

/-!
Verification of the oil-well-map extraction pipeline.

The Python source (`pdf_extractor.py`, `preprocess.py`) is shallowly embedded
over `List Char`.  Regular-expression matching is embedded by a small
backtracking matcher monad `M` whose combinators mirror the regex constructs
used by the source (`re.search` tries every start position left to right and,
at each position, explores alternatives in the priority order of the Python
`re` engine: greedy quantifiers longest first, lazy quantifiers shortest
first, alternation left to right).  Numeric values are modelled as exact
rationals; `round(x, 6)` is modelled as round-half-even at six decimal
places on the exact value.  Environment-variable configuration is modelled
at its documented defaults.
-/

namespace OilWells

/-! ### Character classes (ASCII fragment of the Python `re` classes) -/

/-- Python `\d` on the ASCII inputs handled here. -/
def pyDigit (c : Char) : Bool := '0' ≤ c && c ≤ '9'

/-- Python `\s` (ASCII whitespace). -/
def pyWS (c : Char) : Bool :=
  c = ' ' || c = '\t' || c = '\n' || c = '\x0d' || c = '\x0b' || c = '\x0c'

/-- ASCII alphabetic characters, Python `[A-Za-z]`. -/
def pyAlpha (c : Char) : Bool := ('A' ≤ c && c ≤ 'Z') || ('a' ≤ c && c ≤ 'z')

/-- Python `\w` (ASCII fragment). -/
def pyWord (c : Char) : Bool := pyAlpha c || pyDigit c || c = '_'

/-- Case folding used for `re.IGNORECASE` comparison (ASCII). -/
def lowc (c : Char) : Char :=
  if 'A' ≤ c && c ≤ 'Z' then Char.ofNat (c.toNat + 32) else c

/-- ASCII upper-casing, for Python `str.upper`. -/
def upc (c : Char) : Char :=
  if 'a' ≤ c && c ≤ 'z' then Char.ofNat (c.toNat - 32) else c

def pyLower (s : List Char) : List Char := s.map lowc

def pyUpper (s : List Char) : List Char := s.map upc

/-! ### Python string helpers -/

/-- `str.strip` (whitespace from both ends). -/
def pyStrip (s : List Char) : List Char :=
  ((s.dropWhile pyWS).reverse.dropWhile pyWS).reverse

/-- `str.split(sep)` for a one-character separator. -/
def splitOnChar (sep : Char) : List Char → List (List Char)
  | [] => [[]]
  | c :: cs =>
    let rest := splitOnChar sep cs
    if c = sep then [] :: rest
    else
      match rest with
      | [] => [[c]]
      | r :: rs => (c :: r) :: rs

/-- `'\n'.join` style joining with a one-character separator. -/
def joinWithChar (sep : Char) : List (List Char) → List Char
  | [] => []
  | [l] => l
  | l :: ls => l ++ sep :: joinWithChar sep ls

/-- Joining with a multi-character separator (`'; '.join`). -/
def joinWith (sep : List Char) : List (List Char) → List Char
  | [] => []
  | [l] => l
  | l :: ls => l ++ sep ++ joinWith sep ls

/-- First index at which `needle` occurs as a contiguous sublist
(`str.find`), or `none`. -/
def findSubAux (needle : List Char) : List Char → Nat → Option Nat
  | [], i => if needle.isPrefixOf [] then some i else none
  | c :: cs, i =>
    if needle.isPrefixOf (c :: cs) then some i else findSubAux needle cs (i + 1)

def findSub (hay needle : List Char) : Option Nat :=
  findSubAux needle hay 0

/-- Whether `needle` occurs as a contiguous sublist of `hay`
(Python `in` on strings). -/
def containsSub (hay needle : List Char) : Bool :=
  (findSub hay needle).isSome

/-- Collapse runs of whitespace to a single space, Python
`re.sub(r'\s+', ' ', s)`; `inWS` records whether the previous character
was part of a whitespace run. -/
def collapseWSAux : Bool → List Char → List Char
  | _, [] => []
  | inWS, c :: cs =>
    if pyWS c then
      if inWS then collapseWSAux true cs else ' ' :: collapseWSAux true cs
    else c :: collapseWSAux false cs

def collapseWS (l : List Char) : List Char := collapseWSAux false l

/-! ### Exact-rational numeric model -/

/-- `int(str)` on a trimmed token: optional sign followed by digits only. -/
def pyInt (s : List Char) : Option Int :=
  match s with
  | '-' :: rest =>
    if rest ≠ [] && rest.all pyDigit then some (-(natOfDigits rest : Int)) else none
  | _ =>
    if s ≠ [] && s.all pyDigit then some (natOfDigits s : Int) else none
where
  natOfDigits (l : List Char) : Nat :=
    l.foldl (fun acc c => acc * 10 + (c.toNat - '0'.toNat)) 0

/-- Value of a decimal literal `digits [ '.' digits ]` with optional leading
sign, as an exact rational (`float(tok)` on the tokens produced by the
numeric regexes, which are always well formed). -/
def decValue (intPart fracPart : List Char) (neg : Bool) : ℚ :=
  let ip : ℚ := (pyInt.natOfDigits intPart : ℚ)
  let fp : ℚ := (pyInt.natOfDigits fracPart : ℚ) / ((10 : ℚ) ^ fracPart.length)
  let v := ip + fp
  if neg then -v else v

/-- Round-half-even to an integer. -/
def rhe (q : ℚ) : ℤ :=
  if q - ⌊q⌋ < 1/2 then ⌊q⌋
  else if 1/2 < q - ⌊q⌋ then ⌊q⌋ + 1
  else if ⌊q⌋ % 2 = 0 then ⌊q⌋ else ⌊q⌋ + 1

/-- Python `round(x, 6)` on the exact rational value. -/
def pyRound6 (q : ℚ) : ℚ := (rhe (q * 1000000) : ℚ) / 1000000

theorem rhe_sub_le (q : ℚ) : |(rhe q : ℚ) - q| ≤ 1/2 := by
  unfold rhe
  have h0 : (0 : ℚ) ≤ q - ⌊q⌋ := sub_nonneg.mpr (Int.floor_le q)
  have h1 : q - ⌊q⌋ < 1 := by
    have := Int.lt_floor_add_one q
    linarith
  split_ifs
  · rw [abs_le]; constructor <;> linarith
  · rw [abs_le]; push_cast; constructor <;> linarith
  · rw [abs_le]; constructor <;> linarith
  · rw [abs_le]; push_cast; constructor <;> linarith

theorem pyRound6_le_of_le {q b : ℚ} (hb : q ≤ b) (hbi : b * 1000000 = ((⌊b * 1000000⌋ : ℤ) : ℚ)) :
    pyRound6 q ≤ b := by
  have h := rhe_sub_le (q * 1000000)
  rw [abs_le] at h
  have h2 : (rhe (q * 1000000) : ℚ) ≤ q * 1000000 + 1/2 := by linarith [h.2]
  have h3 : (rhe (q * 1000000) : ℚ) ≤ b * 1000000 + 1/2 := by nlinarith
  have h4 : rhe (q * 1000000) ≤ ⌊b * 1000000⌋ := by
    by_contra hc
    push_neg at hc
    have : (⌊b * 1000000⌋ : ℚ) + 1 ≤ (rhe (q * 1000000) : ℚ) := by exact_mod_cast hc
    rw [← hbi] at this
    linarith
  unfold pyRound6
  rw [div_le_iff₀ (by norm_num : (0:ℚ) < 1000000)]
  calc ((rhe (q * 1000000) : ℤ) : ℚ) ≤ ((⌊b * 1000000⌋ : ℤ) : ℚ) := by exact_mod_cast h4
    _ = b * 1000000 := hbi.symm

theorem pyRound6_ge_of_ge {q b : ℚ} (hb : b ≤ q) (hbi : b * 1000000 = ((⌊b * 1000000⌋ : ℤ) : ℚ)) :
    b ≤ pyRound6 q := by
  have h := rhe_sub_le (q * 1000000)
  rw [abs_le] at h
  have h2 : q * 1000000 - 1/2 ≤ (rhe (q * 1000000) : ℚ) := by linarith [h.1]
  have h3 : b * 1000000 - 1/2 ≤ (rhe (q * 1000000) : ℚ) := by nlinarith
  have h4 : ⌊b * 1000000⌋ ≤ rhe (q * 1000000) := by
    by_contra hc
    push_neg at hc
    have : (rhe (q * 1000000) : ℚ) + 1 ≤ ((⌊b * 1000000⌋ : ℤ) : ℚ) := by exact_mod_cast hc
    rw [← hbi] at this
    linarith
  unfold pyRound6
  rw [le_div_iff₀ (by norm_num : (0:ℚ) < 1000000)]
  calc b * 1000000 = ((⌊b * 1000000⌋ : ℤ) : ℚ) := hbi
    _ ≤ ((rhe (q * 1000000) : ℤ) : ℚ) := by exact_mod_cast h4

theorem rhe_intCast (z : ℤ) : rhe (z : ℚ) = z := by
  unfold rhe
  rw [Int.floor_intCast]
  simp

/-- Rounding an already six-decimal value is the identity. -/
theorem pyRound6_idem (q : ℚ) : pyRound6 (pyRound6 q) = pyRound6 q := by
  unfold pyRound6
  rw [div_mul_cancel₀ _ (by norm_num : (1000000 : ℚ) ≠ 0), rhe_intCast]

/-- Round-half-even is an odd function. -/
theorem rhe_neg (q : ℚ) : rhe (-q) = -rhe q := by
  by_cases h : ((⌊q⌋ : ℤ) : ℚ) = q
  · have h1 : rhe q = ⌊q⌋ := by
      conv_lhs => rw [← h]
      exact rhe_intCast _
    have h2 : -q = (((-⌊q⌋ : ℤ) : ℚ)) := by push_cast; rw [h]
    rw [h1, h2, rhe_intCast]
  · have h0 : (0 : ℚ) < q - ⌊q⌋ := by
      rcases lt_or_eq_of_le (Int.floor_le q) with hlt | heq
      · linarith
      · exact absurd heq h
    have h1 : q - ⌊q⌋ < 1 := by
      have := Int.lt_floor_add_one q
      linarith
    have hfn : ⌊-q⌋ = -⌊q⌋ - 1 := by
      rw [Int.floor_eq_iff]
      constructor
      · push_cast; linarith
      · push_cast; linarith
    unfold rhe
    rw [hfn]
    have e1 : -q - ((-⌊q⌋ - 1 : ℤ) : ℚ) = 1 - (q - ⌊q⌋) := by push_cast; ring
    rw [e1]
    split_ifs <;> first
      | omega
      | (exfalso; linarith)

theorem pyRound6_neg (q : ℚ) : pyRound6 (-q) = -pyRound6 q := by
  unfold pyRound6
  rw [neg_mul, rhe_neg]
  push_cast
  ring

/-! ### Backtracking regex matcher

A matcher state records the consumed text (reversed, for look-behind such
as word boundaries) and the remaining text.  A matcher produces the list
of possible outcomes in the priority order of the Python `re`
backtracking engine; `re.search` takes the first outcome at the leftmost
start position. -/

structure St where
  left : List Char
  rest : List Char
  deriving DecidableEq

def M (α : Type) := St → List (α × St)

def mret (a : α) : M α := fun s => [(a, s)]

def mbind (p : M α) (f : α → M β) : M β := fun s =>
  (p s).flatMap fun x => f x.1 x.2

def mmap (f : α → β) (p : M α) : M β := fun s =>
  (p s).map fun x => (f x.1, x.2)

instance : Monad M where
  pure := mret
  bind := mbind
  map := mmap

def mfail : M α := fun _ => []

/-- Ordered alternation `a|b`. -/
def malt (p q : M α) : M α := fun s => p s ++ q s

/-- Ordered alternation over a list of alternatives. -/
def maltL (ps : List (M α)) : M α := fun s => ps.flatMap fun p => p s

/-- Match one character of a class. -/
def mcls (f : Char → Bool) : M Char := fun s =>
  match s.rest with
  | [] => []
  | c :: cs => if f c then [(c, ⟨c :: s.left, cs⟩)] else []

/-- Match one literal character (case-sensitive). -/
def mch (c : Char) : M Unit := mmap (fun _ => ()) (mcls (· = c))

/-- Match a literal string case-insensitively (`re.IGNORECASE`). -/
def mlitCI (l : List Char) : M Unit := fun s =>
  go l s
where
  go : List Char → St → List (Unit × St)
    | [], st => [((), st)]
    | c :: cs, st =>
      match st.rest with
      | [] => []
      | d :: ds => if lowc d = lowc c then go cs ⟨d :: st.left, ds⟩ else []

/-- Match a literal string case-sensitively. -/
def mlit (l : List Char) : M Unit := fun s =>
  go l s
where
  go : List Char → St → List (Unit × St)
    | [], st => [((), st)]
    | c :: cs, st =>
      match st.rest with
      | [] => []
      | d :: ds => if d = c then go cs ⟨d :: st.left, ds⟩ else []

/-- Exactly `n` characters of a class (`\d{n}` and friends). -/
def mtake (f : Char → Bool) : Nat → M (List Char)
  | 0 => mret []
  | n + 1 => mbind (mcls f) fun c => mmap (c :: ·) (mtake f n)

/-- Up to `k` further characters of a class, greedy (longest first). -/
def mupto (f : Char → Bool) : Nat → M (List Char)
  | 0 => mret []
  | k + 1 => malt (mbind (mcls f) fun c => mmap (c :: ·) (mupto f k)) (mret [])

/-- Up to `k` further characters of a class, lazy (shortest first). -/
def muptoL (f : Char → Bool) : Nat → M (List Char)
  | 0 => mret []
  | k + 1 => malt (mret []) (mbind (mcls f) fun c => mmap (c :: ·) (muptoL f k))

/-- `{lo,hi}` greedy repetition of a class. -/
def mrange (f : Char → Bool) (lo hi : Nat) : M (List Char) :=
  mbind (mtake f lo) fun g => mmap (g ++ ·) (mupto f (hi - lo))

/-- `{lo,hi}?` lazy repetition of a class. -/
def mrangeL (f : Char → Bool) (lo hi : Nat) : M (List Char) :=
  mbind (mtake f lo) fun g => mmap (g ++ ·) (muptoL f (hi - lo))

/-- Greedy star `cls*` (bounded by the remaining length, which the regex
engine can never exceed). -/
def mstar (f : Char → Bool) : M (List Char) := fun s => mupto f s.rest.length s

/-- Lazy star `cls*?`. -/
def mstarL (f : Char → Bool) : M (List Char) := fun s => muptoL f s.rest.length s

/-- Greedy plus `cls+`. -/
def mplus (f : Char → Bool) : M (List Char) :=
  mbind (mcls f) fun c => mmap (c :: ·) (mstar f)

/-- Greedy option `p?` (present first). -/
def mopt (p : M α) : M (Option α) := malt (mmap some p) (mret none)

/-- Word boundary `\b`. -/
def mwb : M Unit := fun s =>
  let lw := match s.left with | [] => false | c :: _ => pyWord c
  let rw := match s.rest with | [] => false | c :: _ => pyWord c
  if lw ≠ rw then [((), s)] else []

/-- Negative look-behind `(?<!\w)`: no preceding word character. -/
def mnoWordBehind : M Unit := fun s =>
  match s.left with
  | [] => [((), s)]
  | c :: _ => if pyWord c then [] else [((), s)]

/-- End anchor `$` (end of text, or just before a final newline). -/
def mEnd : M Unit := fun s =>
  if s.rest = [] ∨ s.rest = ['\n'] then [((), s)] else []

/-- Greedy bounded repetition of an arbitrary sub-matcher
(`(?:...){lo,hi}`), fuelled by `hi`. -/
def mrep (p : M α) : Nat → Nat → M (List α)
  | _, 0 => mret []
  | 0, hi + 1 =>
    malt (mbind p fun a => mmap (a :: ·) (mrep p 0 hi)) (mret [])
  | lo + 1, hi + 1 => mbind p fun a => mmap (a :: ·) (mrep p lo hi)

/-- The characters consumed by a sub-match, alongside its result
(used for `m.group(0)` style spans). -/
def mspan (p : M α) : M (α × List Char) := fun s =>
  (p s).map fun x => ((x.1, (x.2.left.take (x.2.left.length - s.left.length)).reverse), x.2)

/-- First match of `p` at the leftmost possible start position
(`re.search`); returns the result and the state after the match.
Fuelled structurally by the number of start positions left to try. -/
def msearchAux (p : M α) : Nat → St → Option (α × St)
  | 0, _ => none
  | fuel + 1, s =>
    match p s with
    | r :: _ => some r
    | [] =>
      match s.rest with
      | [] => none
      | c :: cs => msearchAux p fuel ⟨c :: s.left, cs⟩

def msearch (p : M α) (s : St) : Option (α × St) :=
  msearchAux p (s.rest.length + 1) s

/-- `re.search` over a whole text. -/
def research (p : M α) (text : List Char) : Option (α × St) :=
  msearch p ⟨[], text⟩

/-- `re.match` (anchored at the start of the text). -/
def rematch (p : M α) (text : List Char) : Option (α × St) :=
  match p ⟨[], text⟩ with
  | r :: _ => some r
  | [] => none

/-- `re.finditer`: successive non-overlapping matches; after an empty
match the scan advances one character, as in Python. -/
def mfindIterAux (p : M α) : Nat → St → List (α × St)
  | 0, _ => []
  | fuel + 1, s =>
    match msearch p s with
    | none => []
    | some (a, s') =>
      if s'.rest.length < s.rest.length then
        (a, s') :: mfindIterAux p fuel s'
      else
        match s'.rest with
        | [] => [(a, s')]
        | c :: cs => (a, s') :: mfindIterAux p fuel ⟨c :: s'.left, cs⟩

def refinditer (p : M α) (text : List Char) : List (α × St) :=
  mfindIterAux p (text.length + 1) ⟨[], text⟩

/-- `re.findall`-style list of results only. -/
def refindall (p : M α) (text : List Char) : List α :=
  (refinditer p text).map (·.1)

/-- `re.split` on a pattern: the segments of text between successive
matches (patterns used for splitting here always consume at least one
character). -/
def resplitAux (p : M Unit) : Nat → List Char → St → List (List Char)
  | 0, seg, _ => [seg.reverse]
  | fuel + 1, seg, s =>
    match p s with
    | _ :: _ =>
      match (p s).head? with
      | some (_, s') =>
        if s'.rest.length < s.rest.length then
          seg.reverse :: resplitAux p fuel [] s'
        else
          match s.rest with
          | [] => [seg.reverse]
          | c :: cs => resplitAux p fuel (c :: seg) ⟨c :: s.left, cs⟩
      | none => [seg.reverse]
    | [] =>
      match s.rest with
      | [] => [seg.reverse]
      | c :: cs => resplitAux p fuel (c :: seg) ⟨c :: s.left, cs⟩

def resplit (p : M Unit) (text : List Char) : List (List Char) :=
  resplitAux p (text.length + 1) [] ⟨[], text⟩

/-- `re.sub` with a replacement computed from the match result; after an
empty match the scan advances one character. -/
def resubAux (rep : α → List Char) (p : M α) : Nat → List Char → St → List Char
  | 0, acc, s => acc.reverse ++ s.rest
  | fuel + 1, acc, s =>
    match p s with
    | (a, s') :: _ =>
      if s'.rest.length < s.rest.length then
        resubAux rep p fuel ((rep a).reverse ++ acc) s'
      else
        match s.rest with
        | [] => (acc.reverse ++ rep a)
        | c :: cs => resubAux rep p fuel (c :: (rep a).reverse ++ acc) ⟨c :: s.left, cs⟩
    | [] =>
      match s.rest with
      | [] => acc.reverse
      | c :: cs => resubAux rep p fuel (c :: acc) ⟨c :: s.left, cs⟩

def resub (rep : α → List Char) (p : M α) (text : List Char) : List Char :=
  resubAux rep p (text.length + 1) [] ⟨[], text⟩

/-! ### Matcher membership lemmas -/

theorem mem_mret {x : α × St} {a : α} {s : St} : x ∈ mret a s ↔ x = (a, s) := by
  simp [mret]

theorem mem_mbind {p : M α} {f : α → M β} {s : St} {x : β × St} :
    x ∈ mbind p f s ↔ ∃ a s₁, (a, s₁) ∈ p s ∧ x ∈ f a s₁ := by
  simp only [mbind, List.mem_flatMap, Prod.exists]

theorem mem_mmap {p : M α} {f : α → β} {s : St} {b : β} {s' : St} :
    (b, s') ∈ mmap f p s ↔ ∃ a, (a, s') ∈ p s ∧ b = f a := by
  unfold mmap
  rw [List.mem_map]
  constructor
  · rintro ⟨⟨a, s₁⟩, h1, h2⟩
    rw [Prod.mk.injEq] at h2
    obtain ⟨h2a, h2b⟩ := h2
    subst h2b
    exact ⟨a, h1, h2a.symm⟩
  · rintro ⟨a, h1, h2⟩
    subst h2
    exact ⟨⟨a, s'⟩, h1, rfl⟩

theorem mem_malt {p q : M α} {s : St} {x : α × St} :
    x ∈ malt p q s ↔ x ∈ p s ∨ x ∈ q s := by
  simp [malt]

theorem mem_mcls {f : Char → Bool} {s : St} {c : Char} {s' : St}
    (h : (c, s') ∈ mcls f s) : f c = true := by
  unfold mcls at h
  rcases s with ⟨l, r⟩
  cases r with
  | nil => simp at h
  | cons d ds =>
    simp only at h
    split at h
    · rw [List.mem_singleton, Prod.mk.injEq] at h
      obtain ⟨h1, _⟩ := h
      subst h1
      assumption
    · simp at h

theorem mem_mtake {f : Char → Bool} {n : Nat} :
    ∀ {s : St} {g : List Char} {s' : St}, (g, s') ∈ mtake f n s →
      g.length = n ∧ ∀ c ∈ g, f c = true := by
  induction n with
  | zero =>
    intro s g s' h
    rw [mtake, mem_mret] at h
    rw [Prod.mk.injEq] at h
    obtain ⟨h1, _⟩ := h
    subst h1
    simp
  | succ k ih =>
    intro s g s' h
    rw [mtake, mem_mbind] at h
    obtain ⟨c, s₁, hc, hx⟩ := h
    rw [mem_mmap] at hx
    obtain ⟨g2, hg, hx1⟩ := hx
    obtain ⟨hlen, hall⟩ := ih hg
    have hfc := mem_mcls hc
    subst hx1
    constructor
    · simp [hlen]
    · intro d hd
      rcases List.mem_cons.mp hd with h1 | h1
      · subst h1; exact hfc
      · exact hall d h1

theorem mem_mupto {f : Char → Bool} {k : Nat} :
    ∀ {s : St} {g : List Char} {s' : St}, (g, s') ∈ mupto f k s →
      g.length ≤ k ∧ ∀ c ∈ g, f c = true := by
  induction k with
  | zero =>
    intro s g s' h
    rw [mupto, mem_mret] at h
    rw [Prod.mk.injEq] at h
    obtain ⟨h1, _⟩ := h
    subst h1
    simp
  | succ k ih =>
    intro s g s' h
    rw [mupto, mem_malt] at h
    rcases h with h | h
    · rw [mem_mbind] at h
      obtain ⟨c, s₁, hc, hx⟩ := h
      rw [mem_mmap] at hx
      obtain ⟨g2, hg, hx1⟩ := hx
      obtain ⟨hlen, hall⟩ := ih hg
      have hfc := mem_mcls hc
      subst hx1
      constructor
      · simpa using hlen
      · intro d hd
        rcases List.mem_cons.mp hd with h1 | h1
        · subst h1; exact hfc
        · exact hall d h1
    · rw [mem_mret] at h
      rw [Prod.mk.injEq] at h
      obtain ⟨h1, _⟩ := h
      subst h1
      simp

theorem mem_mrange {f : Char → Bool} {lo hi : Nat} {s : St} {g : List Char} {s' : St}
    (h : (g, s') ∈ mrange f lo hi s) :
    lo ≤ g.length ∧ g.length ≤ lo + (hi - lo) ∧ ∀ c ∈ g, f c = true := by
  rw [mrange, mem_mbind] at h
  obtain ⟨g1, s₁, hg, hx⟩ := h
  rw [mem_mmap] at hx
  obtain ⟨g2, hg2, hx1⟩ := hx
  obtain ⟨hl1, ha1⟩ := mem_mtake hg
  obtain ⟨hl2, ha2⟩ := mem_mupto hg2
  subst hx1
  refine ⟨?_, ?_, ?_⟩
  · simp [hl1]
  · simp [hl1]; omega
  · intro c hc
    rw [List.mem_append] at hc
    rcases hc with h1 | h1
    · exact ha1 c h1
    · exact ha2 c h1

theorem msearchAux_spec {p : M α} :
    ∀ (fuel : Nat) (s : St) {r : α × St},
      msearchAux p fuel s = some r → ∃ s₁, r ∈ p s₁ := by
  intro fuel
  induction fuel with
  | zero =>
    intro s r h
    simp [msearchAux] at h
  | succ k ih =>
    intro s r h
    rw [msearchAux] at h
    split at h
    · rename_i rr tail heq
      injection h with h1
      subst h1
      exact ⟨s, by rw [heq]; simp⟩
    · split at h
      · exact absurd h (by simp)
      · exact ih _ h

theorem msearch_spec {p : M α} {s : St} {r : α × St}
    (h : msearch p s = some r) : ∃ s₁, r ∈ p s₁ :=
  msearchAux_spec _ s h

theorem research_spec {p : M α} {text : List Char} {r : α × St}
    (h : research p text = some r) : ∃ s₁, r ∈ p s₁ :=
  msearch_spec h

theorem rematch_spec {p : M α} {text : List Char} {r : α × St}
    (h : rematch p text = some r) : r ∈ p ⟨[], text⟩ := by
  unfold rematch at h
  split at h
  · rename_i rr _ heq
    rw [heq]
    simp at h
    subst h
    simp
  · exact absurd h (by simp)

/-! ### Strip lemmas -/

theorem mem_dropWhile_of_not {p : Char → Bool} {c : Char} :
    ∀ {l : List Char}, c ∈ l → p c = false → c ∈ l.dropWhile p := by
  intro l
  induction l with
  | nil => intro h; simp at h
  | cons d ds ih =>
    intro hc hp
    rw [List.dropWhile_cons]
    split
    · rcases List.mem_cons.mp hc with h1 | h1
      · subst h1; simp_all
      · exact ih h1 hp
    · exact hc

theorem pyStrip_mem {c : Char} {l : List Char} (hc : c ∈ l) (hp : pyWS c = false) :
    c ∈ pyStrip l := by
  unfold pyStrip
  rw [List.mem_reverse]
  apply mem_dropWhile_of_not _ hp
  rw [List.mem_reverse]
  exact mem_dropWhile_of_not hc hp

theorem pyStrip_ne_nil {c : Char} {l : List Char} (hc : c ∈ l) (hp : pyWS c = false) :
    pyStrip l ≠ [] := by
  intro h
  have hm := pyStrip_mem hc hp
  rw [h] at hm
  simp at hm

theorem bind_def (p : M α) (f : α → M β) : p >>= f = mbind p f := rfl

theorem pure_def (a : α) : (pure a : M α) = mret a := rfl

theorem map_def (f : α → β) (p : M α) : f <$> p = mmap f p := rfl

/-! ### Characters written by code point (quote, apostrophe, backquote and
the Unicode punctuation handled by the source). -/

def cQuote : Char := Char.ofNat 34
def cApos : Char := Char.ofNat 39
def cBackq : Char := Char.ofNat 96

/-! ## `pdf_extractor.py` — value parsers -/

/-- `normalize_dms` (`pdf_extractor.py` lines 38-44): fold degree, minute
and second glyph variants to canonical characters and drop tildes. -/
def normalize_dms (text : List Char) : List Char :=
  (text.map (fun c =>
    if c = 'º' ∨ c = '˚' ∨ c = '·' ∨ c = '˙' then '°'
    else if c = '′' ∨ c = '’' ∨ c = 'ʼ' ∨ c = 'ʹ' ∨ c = cBackq ∨ c = '´' then cApos
    else if c = '″' ∨ c = '”' ∨ c = 'ʺ' then cQuote
    else c)).filter (fun c => ¬(c = '~'))

/-- The numeric-literal regex `-?\d+\.?\d*` shared by the value parsers:
sign presence, integer digits, fraction digits. -/
def numTokPat : M (Bool × List Char × List Char) := do
  let sign ← mopt (mch '-')
  let ip ← mplus pyDigit
  let _ ← mopt (mch '.')
  let fp ← mstar pyDigit
  pure (sign.isSome, ip, fp)

/-- Exact value of a token matched by `numTokPat` (`float` on the match). -/
def tokVal (t : Bool × List Char × List Char) : ℚ :=
  decValue t.2.1 t.2.2 t.1

/-- The numeric components found by `dms_to_decimal` (line 52): glyphs
folded to spaces, the string stripped, and every `-?\d+\.?\d*` token
converted by `float`. -/
def dmsNumerals (dms_str : List Char) : List ℚ :=
  (refindall numTokPat (pyStrip ((dms_str.map (fun c =>
    if c = '°' ∨ c = '′' ∨ c = '″' ∨ c = '’' then ' ' else c)).map
    (fun c => if c = cQuote then ' ' else c)))).map tokVal

/-- `dms_to_decimal` (`pdf_extractor.py` lines 47-64).  The `float`
conversion in the source cannot fail on tokens of the numeric regex, so
the `try` is not represented. -/
def dms_to_decimal (dms_str : List Char) : Option ℚ :=
  if pyStrip dms_str = [] then none
  else
    match dmsNumerals dms_str with
    | deg :: mins :: secs :: _ =>
      if 60 ≤ mins ∨ 60 ≤ secs then none
      else
        let dec := |deg| + mins / 60 + secs / 3600
        let dec := if deg < 0 ∨ containsSub (pyUpper dms_str) [('W' : Char)] ∨
            containsSub (pyUpper dms_str) [('S' : Char)] then -dec else dec
        some (pyRound6 dec)
    | _ => none

/-- `parse_num` (`pdf_extractor.py` lines 67-78). -/
def parse_num (s : List Char) : Option ℚ :=
  if s = [] then none
  else
    let cleaned := (pyStrip s).filter (fun c => ¬(c = ',' ∨ pyWS c))
    match research numTokPat cleaned with
    | some (t, _) => some (tokVal t)
    | none => none

/-- Gregorian leap year, as validated by `datetime`. -/
def isLeap (y : Int) : Bool := (y % 4 = 0 ∧ y % 100 ≠ 0) ∨ y % 400 = 0

def daysInMonth (y mo : Int) : Int :=
  if mo = 2 then (if isLeap y then 29 else 28)
  else if mo = 4 ∨ mo = 6 ∨ mo = 9 ∨ mo = 11 then 30
  else 31

/-- Success condition of `datetime(year, month, day)` for month and day
already within 1-12 and 1-31. -/
def datetimeValid (y mo day : Int) : Bool :=
  1 ≤ y ∧ y ≤ 9999 ∧ day ≤ daysInMonth y mo

def natDigits (n : Nat) : List Char := Nat.toDigits 10 n

def pad2 (n : Int) : List Char :=
  if n < 10 then '0' :: natDigits n.toNat else natDigits n.toNat

/-- `strftime("%Y-%m-%d")` for a valid date (glibc does not zero-pad
`%Y`; all years reached by the claims have four digits). -/
def fmtISO (y mo day : Int) : List Char :=
  natDigits y.toNat ++ '-' :: (pad2 mo ++ '-' :: pad2 day)

/-- One `(month, day)` attempt of `normalize_date_to_iso`: bounds check,
then `datetime` construction (a `ValueError` yields `none`). -/
def tryMonthDay (y mo day : Int) : Option (List Char) :=
  if 1 ≤ mo ∧ mo ≤ 12 ∧ 1 ≤ day ∧ day ≤ 31 then
    if datetimeValid y mo day then some (fmtISO y mo day) else none
  else none

/-- `normalize_date_to_iso` (`pdf_extractor.py` lines 92-114) at the
default configuration: two-digit-year cutoff 50 and output format
`%Y-%m-%d`. -/
def normalize_date_to_iso (date_str : List Char) : Option (List Char) :=
  if pyStrip date_str = [] then none
  else
    let s := (pyStrip date_str).map (fun c =>
      if pyDigit c || c = '/' || c = '-' then c else '/')
    let parts := (splitOnChar '/' s).filter (fun p => ¬(pyStrip p = []))
    match parts with
    | [pa, pb, pc] =>
      match pyInt pa, pyInt pb, pyInt pc with
      | some a, some b, some c0 =>
        let y := if c0 < 100 then (if c0 < 50 then c0 + 2000 else c0 + 1900) else c0
        match tryMonthDay y a b with
        | some r => some r
        | none => tryMonthDay y b a
      | _, _, _ => none
    | _ => none

/-! ## `pdf_extractor.py` — `extract_api` (lines 214-255) -/

/-- `\s+` -/
def mws1 : M Unit := mmap (fun _ => ()) (mplus pyWS)

/-- `\s*` -/
def mws0 : M Unit := mmap (fun _ => ()) (mstar pyWS)

/-- The section headers opening the survey/permit region. -/
def surveyHeadPat : M Unit := maltL [
  do mlitCI ("Directional").data; mws1; mlitCI ("Survey").data,
  do mlitCI ("Survey").data; mws1;
     malt (mlitCI ("Report").data) (mlitCI ("Certification").data),
  do mlitCI ("Well").data; mws1; mlitCI ("Completion").data,
  do mlitCI ("APPLICATION").data; mws1; mlitCI ("FOR").data; mws1;
     mlitCI ("PERMIT").data]

/-- `.*\n` — one full line including its newline. -/
def lineChunkPat : M Unit := do
  let _ ← mstar (fun c => ¬(c = '\n'))
  mch '\n'

/-- The whole matched text (`m.group(0)`) of the survey-region pattern
`(?:headers)[^\n]*((?:.*\n){0,20})`. -/
def surveyRegionPat : M (List Char) :=
  mmap (fun x => x.2) (mspan (do
    surveyHeadPat
    let _ ← mstar (fun c => ¬(c = '\n'))
    let _ ← mrep lineChunkPat 0 20
    pure ()))

/-- `(?:-\d{2}-\d{2})?` tail of the first API pattern. -/
def apiTrail : M Unit := do
  mch '-'
  let _ ← mtake pyDigit 2
  mch '-'
  let _ ← mtake pyDigit 2
  pure ()

/-- `API\s*[#:\s]*(\d{2})-(\d{3})-(\d{5})(?:-\d{2}-\d{2})?` -/
def apiPat1 : M (List Char × List Char × List Char) := do
  mlitCI ("API").data
  mws0
  let _ ← mstar (fun c => c = '#' || c = ':' || pyWS c)
  let g1 ← mtake pyDigit 2
  mch '-'
  let g2 ← mtake pyDigit 3
  mch '-'
  let g3 ← mtake pyDigit 5
  let _ ← mopt apiTrail
  pure (g1, g2, g3)

/-- `\s*[-]\s*` -/
def sepDash : M Unit := do
  mws0
  mch '-'
  mws0

/-- `\s*[-]?\s*` -/
def sepDashOpt : M Unit := do
  mws0
  let _ ← mopt (mch '-')
  mws0

/-- `[:#]?` -/
def mColonHashOpt : M Unit := do
  let _ ← mopt (mcls (fun c => c = ':' || c = '#'))
  pure ()

/-- `API\s*[:#]?\s*(\d{2})\s*[-]\s*(\d{3})\s*[-]\s*(\d{5})` -/
def apiPat2 : M (List Char × List Char × List Char) := do
  mlitCI ("API").data
  mws0
  mColonHashOpt
  mws0
  let g1 ← mtake pyDigit 2
  sepDash
  let g2 ← mtake pyDigit 3
  sepDash
  let g3 ← mtake pyDigit 5
  pure (g1, g2, g3)

/-- `API\s*[:#]?\s*(\d{2})\s*[-]?\s*(\d{3})\s*[-]?\s*(\d{5})` -/
def apiPat3 : M (List Char × List Char × List Char) := do
  mlitCI ("API").data
  mws0
  mColonHashOpt
  mws0
  let g1 ← mtake pyDigit 2
  sepDashOpt
  let g2 ← mtake pyDigit 3
  sepDashOpt
  let g3 ← mtake pyDigit 5
  pure (g1, g2, g3)

/-- `(?:No\.?|Number|JOB\s*#?)` -/
def apiKw : M Unit := maltL [
  do mlitCI ("No").data; let _ ← mopt (mch '.'); pure (),
  mlitCI ("Number").data,
  do mlitCI ("JOB").data; mws0; let _ ← mopt (mch '#'); pure ()]

/-- `API\s+(?:No\.?|Number|JOB\s*#?)\s*[:\s]*(\d{2})-(\d{3})-(\d{5})` -/
def apiPat4 : M (List Char × List Char × List Char) := do
  mlitCI ("API").data
  mws1
  apiKw
  let _ ← mstar (fun c => c = ':' || pyWS c)
  let g1 ← mtake pyDigit 2
  mch '-'
  let g2 ← mtake pyDigit 3
  mch '-'
  let g3 ← mtake pyDigit 5
  pure (g1, g2, g3)

/-- `API\s+(?:No\.?|Number|JOB\s*#?)\s*[:\s]*(\d{2})\s+(\d{3})\s+(\d{5})\b` -/
def apiPat5 : M (List Char × List Char × List Char) := do
  mlitCI ("API").data
  mws1
  apiKw
  let _ ← mstar (fun c => c = ':' || pyWS c)
  let g1 ← mtake pyDigit 2
  mws1
  let g2 ← mtake pyDigit 3
  mws1
  let g3 ← mtake pyDigit 5
  mwb
  pure (g1, g2, g3)

/-- `API\s*[:#]?\s*(\d{10,11})\b` -/
def apiPat6 : M (List Char) := do
  mlitCI ("API").data
  mws0
  mColonHashOpt
  mws0
  let raw ← mrange pyDigit 10 11
  mwb
  pure raw

/-- `\b(33)\s+(\d{3})\s+(\d{5})\b` -/
def apiSpacePat : M (List Char × List Char) := do
  mwb
  mlit ("33").data
  mws1
  let g2 ← mtake pyDigit 3
  mws1
  let g3 ← mtake pyDigit 5
  mwb
  pure (g2, g3)

/-- `(\d{2})-(\d{3})-(\d{5})\b` -/
def apiLoosePat : M (List Char × List Char × List Char) := do
  let g1 ← mtake pyDigit 2
  mch '-'
  let g2 ← mtake pyDigit 3
  mch '-'
  let g3 ← mtake pyDigit 5
  mwb
  pure (g1, g2, g3)

/-- `f"{g1}-{g2}-{g3}"` -/
def fmt3 (g1 g2 g3 : List Char) : List Char := g1 ++ ('-' :: (g2 ++ ('-' :: g3)))

/-- The raw-digit branch of `extract_api` (lines 238-245): the captured
run of 10 or 11 digits is reformatted; an 11-digit run starting `33`
drops its third digit, any other long run keeps its first ten digits. -/
def formatRawApi (raw : List Char) : List Char :=
  if raw.length = 10 then
    fmt3 (raw.take 2) ((raw.drop 2).take 3) ((raw.drop 5).take 5)
  else if raw.length = 11 ∧ raw.take 2 = ['3', '3'] then
    fmt3 ['3', '3'] ((raw.drop 3).take 3) ((raw.drop 6).take 5)
  else if 10 ≤ raw.length then
    fmt3 (raw.take 2) ((raw.drop 2).take 3) ((raw.drop 5).take 5)
  else raw

/-- First non-`none` element. -/
def firstSome : List (Option α) → Option α
  | [] => none
  | some a :: _ => some a
  | none :: rest => firstSome rest

/-- The six-pattern cascade of `extract_api` applied to one region. -/
def apiFromRegion (region : List Char) : Option (List Char) :=
  match research apiPat1 region with
  | some (g, _) => some (fmt3 g.1 g.2.1 g.2.2)
  | none =>
  match research apiPat2 region with
  | some (g, _) => some (fmt3 g.1 g.2.1 g.2.2)
  | none =>
  match research apiPat3 region with
  | some (g, _) => some (fmt3 g.1 g.2.1 g.2.2)
  | none =>
  match research apiPat4 region with
  | some (g, _) => some (fmt3 g.1 g.2.1 g.2.2)
  | none =>
  match research apiPat5 region with
  | some (g, _) => some (fmt3 g.1 g.2.1 g.2.2)
  | none =>
  match research apiPat6 region with
  | some (raw, _) => some (formatRawApi raw)
  | none => none

/-- The region list of `extract_api`: the survey block when one is
found, then the whole text. -/
def apiRegions (text : List Char) : List (List Char) :=
  (match research surveyRegionPat text with
   | some (r, _) => [r]
   | none => []) ++ [text]

/-- `extract_api` (`pdf_extractor.py` lines 214-255). -/
def extract_api (text : List Char) : Option (List Char) :=
  match firstSome ((apiRegions text).map apiFromRegion) with
  | some v => some v
  | none =>
  match research apiSpacePat text with
  | some (g, _) => some (fmt3 ['3', '3'] g.1 g.2)
  | none =>
  match research apiLoosePat text with
  | some (g, _) => some (fmt3 g.1 g.2.1 g.2.2)
  | none => none

/-! ## `pdf_extractor.py` — coordinate extractors (lines 273-390)

The coordinate bound configuration `_coord_bounds` is modelled at its
defaults (environment unset): latitude -90..90, longitude absolute
0..180, longitude degrees minimum 0. -/

def latMinDefault : ℚ := -90
def latMaxDefault : ℚ := 90
def lonAbsMinDefault : ℚ := 0
def lonAbsMaxDefault : ℚ := 180
def lonDegMinDefault : Int := 0

/-- `_nd_lat_ok` (lines 273-274). -/
def ndLatOk (v : ℚ) : Bool := (45.9 : ℚ) ≤ v ∧ v ≤ (49.1 : ℚ)

/-- `_nd_lon_ok` (lines 277-278). -/
def ndLonOk (v : ℚ) : Bool := (96.5 : ℚ) ≤ |v| ∧ |v| ≤ (104.1 : ℚ)

/-- `Lat(?:itude|ittude)?` -/
def latWordPat : M Unit := do
  mlitCI ("Lat").data
  let _ ← mopt (malt (mlitCI ("itude").data) (mlitCI ("ittude").data))
  pure ()

/-- `Long(?:itude)?` -/
def lonWordPat : M Unit := do
  mlitCI ("Long").data
  let _ ← mopt (mlitCI ("itude").data)
  pure ()

/-- `[:\s]` -/
def mColonWS : M Unit := mmap (fun _ => ()) (mcls (fun c => c = ':' || pyWS c))

/-- `\s*[°]\s*` -/
def mDegSep : M Unit := do
  mws0
  mch '°'
  mws0

/-- `\s*[\']?\s*` -/
def mMinSepOpt : M Unit := do
  mws0
  let _ ← mopt (mch cApos)
  mws0

/-- `([\d.]+)` -/
def mNumDot : M (List Char) := mplus (fun c => pyDigit c || c = '.')

/-- `\s*["]?\s*` -/
def mSecSepOpt : M Unit := do
  mws0
  let _ ← mopt (mch cQuote)
  mws0

/-- `-?\d+` captured with its sign characters. -/
def mSignedDigits : M (List Char) := do
  let sign ← mopt (mch '-')
  let ds ← mplus pyDigit
  pure (match sign with | some _ => '-' :: ds | none => ds)

/-- `-?\d{lo,hi}` captured with its sign characters. -/
def mSignedDigitsRange (lo hi : Nat) : M (List Char) := do
  let sign ← mopt (mch '-')
  let ds ← mrange pyDigit lo hi
  pure (match sign with | some _ => '-' :: ds | none => ds)

/-- The six labelled-DMS latitude patterns of `extract_latitude`
(lines 286-293), each returning the three captured groups. -/
def latDmsPats : List (M (List Char × List Char × List Char)) := [
  do mlitCI ("Well").data; mws1; mlitCI ("Coordinates").data
     let _ ← mstar (fun c => ¬(c = '('))
     mch '('
     mws0
     let g1 ← mplus pyDigit
     mDegSep
     let g2 ← mplus pyDigit
     mMinSepOpt
     let g3 ← mNumDot
     mSecSepOpt
     mlitCI ("N").data
     mws0
     let _ ← mcls (fun c => c = ',' || c = ')')
     pure (g1, g2, g3),
  do mlitCI ("Latitude").data; mws1; mlitCI ("of").data; mws1
     mlitCI ("Well").data; mws1; mlitCI ("Head").data
     let _ ← mstar (fun c => ¬(pyDigit c))
     let g1 ← mplus pyDigit
     mDegSep
     let g2 ← mplus pyDigit
     mMinSepOpt
     let g3 ← mNumDot
     mws0
     let _ ← mopt (mch cQuote)
     pure (g1, g2, g3),
  do malt (do mlitCI ("Site").data; mws1; mlitCI ("Position").data)
          (do mlitCI ("Well").data; mws1; mlitCI ("Position").data)
     let _ ← mstar (fun c => ¬(pyDigit c))
     mlitCI ("Latitude").data
     mws0
     mColonWS
     mws0
     let g1 ← mplus pyDigit
     mDegSep
     let g2 ← mplus pyDigit
     mMinSepOpt
     let g3 ← mNumDot
     mSecSepOpt
     mlitCI ("N").data
     pure (g1, g2, g3),
  do latWordPat
     mws0
     mColonWS
     mws0
     let g1 ← mtake pyDigit 2
     mDegSep
     let g2 ← mrange pyDigit 1 2
     mMinSepOpt
     let g3 ← mNumDot
     mSecSepOpt
     mlitCI ("N").data
     pure (g1, g2, g3),
  do let g1 ← mtake pyDigit 2
     mDegSep
     let g2 ← mrange pyDigit 1 2
     mws0
     mch cApos
     mws0
     let g3 ← mNumDot
     mSecSepOpt
     mlitCI ("N").data
     mwb
     pure (g1, g2, g3),
  do latWordPat
     mws0
     mColonWS
     mws0
     let g1 ← mtake pyDigit 2
     mws1
     let g2 ← mrange pyDigit 1 2
     mws1
     let g3 ← mNumDot
     mws0
     mlitCI ("N").data
     mwb
     pure (g1, g2, g3)]

/-- `(\d{2}\.\d{2,6})` — integer and fraction digits of the decimal
latitude capture. -/
def mLatDecNum : M (List Char × List Char) := do
  let ip ← mtake pyDigit 2
  mch '.'
  let fp ← mrange pyDigit 2 6
  pure (ip, fp)

/-- `(?:deg\.?\s*[NS]?)?` -/
def mDegSuffix : M Unit := do
  let _ ← mopt (do
    mlitCI ("deg").data
    let _ ← mopt (mch '.')
    mws0
    let _ ← mopt (mcls (fun c => lowc c = 'n' || lowc c = 's'))
    pure ())
  pure ()

/-- The three decimal latitude patterns (lines 302-306), applied with
`re.finditer`. -/
def latDecPats : List (M (List Char × List Char)) := [
  do let _ ← mopt (do mlitCI ("Survey").data; mws1)
     latWordPat
     mws0
     mColonWS
     mws0
     let g ← mLatDecNum
     mws0
     mDegSuffix
     pure g,
  do mwb
     latWordPat
     mwb
     let _ ← mrange (fun c => ¬(pyDigit c || c = '\n')) 0 20
     mLatDecNum,
  do latWordPat
     mws0
     let _ ← mplus (fun c => c = ':' || pyWS c)
     mws0
     let g ← mLatDecNum
     mws0
     let _ ← mopt (mcls (fun c => c = '°' || lowc c = 'n'))
     pure g]

/-- `(?:Well\s+Coord|Survey|APPLICATION\s+FOR\s+PERMIT|Well\s+Completion)` -/
def surveyCtxHead : M Unit := maltL [
  do mlitCI ("Well").data; mws1; mlitCI ("Coord").data,
  mlitCI ("Survey").data,
  do mlitCI ("APPLICATION").data; mws1; mlitCI ("FOR").data; mws1;
     mlitCI ("PERMIT").data,
  do mlitCI ("Well").data; mws1; mlitCI ("Completion").data]

/-- Survey-context latitude pattern (lines 315-318):
`...[^\d]{0,600}(\d{1,2}\.\d{2,6})` (DOTALL labels cross lines). -/
def latSurveyPat : M (List Char × List Char) := do
  surveyCtxHead
  let _ ← mrange (fun c => ¬(pyDigit c)) 0 600
  let ip ← mrange pyDigit 1 2
  mch '.'
  let fp ← mrange pyDigit 2 6
  pure (ip, fp)

/-- DMS string `f"{g1}° {g2}' {g3}\" N"` built by `extract_latitude`. -/
def latDmsString (g : List Char × List Char × List Char) : List Char :=
  g.1 ++ '°' :: ' ' :: (g.2.1 ++ cApos :: ' ' :: (g.2.2 ++ cQuote :: ' ' :: ['N']))

/-- Candidate from one labelled-DMS latitude pattern: first match,
converted and admitted only within the plus-or-minus 90 range. -/
def latDmsCand (norm : List Char) (p : M (List Char × List Char × List Char)) : List ℚ :=
  match research p norm with
  | some (g, _) =>
    match dms_to_decimal (latDmsString g) with
    | some dec => if -90 ≤ dec ∧ dec ≤ 90 then [pyRound6 dec] else []
    | none => []
  | none => []

/-- Candidates from one decimal latitude pattern: every match, admitted
only within the plus-or-minus 90 range. -/
def latDecCand (norm : List Char) (p : M (List Char × List Char)) : List ℚ :=
  (refindall p norm).filterMap (fun g =>
    let v := decValue g.1 g.2 false
    if -90 ≤ v ∧ v ≤ 90 then some (pyRound6 v) else none)

/-- Survey-context latitude candidate, admitted within the configured
latitude bounds (defaults -90..90). -/
def latSurveyCand (text : List Char) : List ℚ :=
  match research latSurveyPat text with
  | some (g, _) =>
    let v := decValue g.1 g.2 false
    if latMinDefault ≤ v ∧ v ≤ latMaxDefault then [pyRound6 v] else []
  | none => []

/-- The full candidate list collected by `extract_latitude`
(lines 281-326), in collection order. -/
def latCandidates (text : List Char) : List ℚ :=
  let norm := normalize_dms text
  (latDmsPats.foldl (fun acc p => acc ++ latDmsCand norm p) []
    ++ latDecPats.foldl (fun acc p => acc ++ latDecCand norm p) [])
    ++ latSurveyCand text

/-- `extract_latitude` (lines 281-330): first candidate inside the
regional box, else the first candidate. -/
def extract_latitude (text : List Char) : Option ℚ :=
  match (latCandidates text).find? ndLatOk with
  | some v => some v
  | none => (latCandidates text).head?.map pyRound6

/-- The seven labelled-DMS longitude patterns of `extract_longitude`
(lines 338-346). -/
def lonDmsPats : List (M (List Char × List Char × List Char)) := [
  do mlitCI ("Well").data; mws1; mlitCI ("Coordinates").data
     let _ ← mstar (fun c => ¬(c = ')'))
     mlitCI ("N").data
     mws0
     let _ ← mcls (fun c => c = ',' || c = ')')
     mws0
     let g1 ← mplus pyDigit
     mDegSep
     let g2 ← mplus pyDigit
     mMinSepOpt
     let g3 ← mNumDot
     mSecSepOpt
     mlitCI ("W").data
     pure (g1, g2, g3),
  do mlitCI ("Longitude").data; mws1; mlitCI ("of").data; mws1
     mlitCI ("Well").data; mws1; mlitCI ("Head").data
     let _ ← mstar (fun c => ¬(pyDigit c))
     let g1 ← mSignedDigits
     mDegSep
     let g2 ← mplus pyDigit
     mMinSepOpt
     let g3 ← mNumDot
     mSecSepOpt
     let _ ← mopt (mlitCI ("W").data)
     pure (g1, g2, g3),
  do malt (do mlitCI ("Site").data; mws1; mlitCI ("Position").data)
          (do mlitCI ("Well").data; mws1; mlitCI ("Position").data)
     let _ ← mstar (fun c => ¬(pyDigit c))
     mlitCI ("Longitude").data
     mws0
     mColonWS
     mws0
     let g1 ← mplus pyDigit
     mDegSep
     let g2 ← mplus pyDigit
     mMinSepOpt
     let g3 ← mNumDot
     mSecSepOpt
     mlitCI ("W").data
     pure (g1, g2, g3),
  do lonWordPat
     mws0
     mColonWS
     mws0
     let g1 ← mrange pyDigit 2 3
     mDegSep
     let g2 ← mrange pyDigit 1 2
     mMinSepOpt
     let g3 ← mNumDot
     mSecSepOpt
     mlitCI ("W").data
     pure (g1, g2, g3),
  do lonWordPat
     mws0
     mColonWS
     mws0
     let g1 ← mSignedDigitsRange 2 3
     mws0
     let _ ← mcls (fun c => c = cQuote || c = '“')
     mws0
     let g2 ← mrange pyDigit 1 2
     mMinSepOpt
     let g3 ← mNumDot
     mSecSepOpt
     mlitCI ("W").data
     pure (g1, g2, g3),
  do let g1 ← mrange pyDigit 2 3
     mDegSep
     let g2 ← mrange pyDigit 1 2
     mws0
     mch cApos
     mws0
     let g3 ← mNumDot
     mSecSepOpt
     mlitCI ("W").data
     mwb
     pure (g1, g2, g3),
  do lonWordPat
     mws0
     mColonWS
     mws0
     let g1 ← mrange pyDigit 2 3
     mws1
     let g2 ← mrange pyDigit 1 2
     mws1
     let g3 ← mNumDot
     mws0
     mlitCI ("W").data
     mwb
     pure (g1, g2, g3)]

/-- `(-?\d{2,3}\.\d{2,6})` — sign, integer and fraction digits of the
decimal longitude capture. -/
def mLonDecNum : M (Bool × List Char × List Char) := do
  let sign ← mopt (mch '-')
  let ip ← mrange pyDigit 2 3
  mch '.'
  let fp ← mrange pyDigit 2 6
  pure (sign.isSome, ip, fp)

/-- `(?:deg\.?\s*[WE]?)?` -/
def mDegSuffixWE : M Unit := do
  let _ ← mopt (do
    mlitCI ("deg").data
    let _ ← mopt (mch '.')
    mws0
    let _ ← mopt (mcls (fun c => lowc c = 'w' || lowc c = 'e'))
    pure ())
  pure ()

/-- The three decimal longitude patterns (lines 360-364), applied with
`re.finditer`. -/
def lonDecPats : List (M (Bool × List Char × List Char)) := [
  do let _ ← mopt (do mlitCI ("Survey").data; mws1)
     mwb
     lonWordPat
     mwb
     mws0
     mColonWS
     mws0
     let g ← mLonDecNum
     mws0
     mDegSuffixWE
     pure g,
  do mwb
     lonWordPat
     mwb
     let _ ← mrange (fun c => ¬(pyDigit c || c = '\n')) 0 20
     mLonDecNum,
  do lonWordPat
     mws0
     let _ ← mplus (fun c => c = ':' || pyWS c)
     mws0
     let g ← mLonDecNum
     mws0
     let _ ← mopt (mcls (fun c => c = '°' || lowc c = 'w'))
     pure g]

/-- Survey-context longitude pattern (lines 375-378):
`...[^\d]{0,800}(\d{2,3}\.\d{2,6})`. -/
def lonSurveyPat : M (List Char × List Char) := do
  surveyCtxHead
  let _ ← mrange (fun c => ¬(pyDigit c)) 0 800
  let ip ← mrange pyDigit 2 3
  mch '.'
  let fp ← mrange pyDigit 2 6
  pure (ip, fp)

/-- DMS string `f"-{deg}° {g2}' {g3}\" W"` built by `extract_longitude`
(`deg` is the first group with its minus signs stripped, as an
integer). -/
def lonDmsString (deg : Nat) (g2 g3 : List Char) : List Char :=
  '-' :: (natDigits deg ++ '°' :: ' ' :: (g2 ++ cApos :: ' ' :: (g3 ++ cQuote :: ' ' :: ['W'])))

/-- The sign-forcing reassignment `if dec > 0: dec = -dec` of
`extract_longitude`. -/
def forceNeg (x : ℚ) : ℚ := if 0 < x then -x else x

/-- The degree group with its minus signs stripped, as an integer
(`int(str(...).lstrip('-'))`). -/
def lonDegOf (g1 : List Char) : Nat :=
  pyInt.natOfDigits (g1.dropWhile (fun c => c = '-'))

/-- Candidate from one labelled-DMS longitude pattern: the degree group
is compared against the minimum-degrees bound (default 0), the value is
forced negative and admitted within plus-or-minus 180. -/
def lonDmsCand (norm : List Char) (p : M (List Char × List Char × List Char)) : List ℚ :=
  match research p norm with
  | some (g, _) =>
    if (lonDegOf g.1 : Int) < lonDegMinDefault then []
    else
      match dms_to_decimal (lonDmsString (lonDegOf g.1) g.2.1 g.2.2) with
      | some dec0 =>
        if -180 ≤ forceNeg dec0 ∧ forceNeg dec0 ≤ 180 then
          [pyRound6 (forceNeg dec0)]
        else []
      | none => []
  | none => []

/-- Candidates from one decimal longitude pattern: every match, forced
negative and admitted within plus-or-minus 180. -/
def lonDecCand (norm : List Char) (p : M (Bool × List Char × List Char)) : List ℚ :=
  (refindall p norm).filterMap (fun g =>
    if -180 ≤ forceNeg (decValue g.2.1 g.2.2 g.1) ∧
        forceNeg (decValue g.2.1 g.2.2 g.1) ≤ 180 then
      some (pyRound6 (forceNeg (decValue g.2.1 g.2.2 g.1)))
    else none)

/-- Survey-context longitude candidate: admitted within the configured
absolute bounds (defaults 0..180) and appended negated. -/
def lonSurveyCand (text : List Char) : List ℚ :=
  match research lonSurveyPat text with
  | some (g, _) =>
    let v := decValue g.1 g.2 false
    if lonAbsMinDefault ≤ v ∧ v ≤ lonAbsMaxDefault then [pyRound6 (-v)] else []
  | none => []

/-- The full candidate list collected by `extract_longitude`
(lines 333-385), in collection order. -/
def lonCandidates (text : List Char) : List ℚ :=
  let norm := normalize_dms text
  (lonDmsPats.foldl (fun acc p => acc ++ lonDmsCand norm p) []
    ++ lonDecPats.foldl (fun acc p => acc ++ lonDecCand norm p) [])
    ++ lonSurveyCand text

/-- `extract_longitude` (lines 333-390): first candidate inside the
regional box, else the first candidate. -/
def extract_longitude (text : List Char) : Option ℚ :=
  match (lonCandidates text).find? ndLonOk with
  | some v => some v
  | none => (lonCandidates text).head?.map pyRound6

/-! ## `pdf_extractor.py` — stimulation block segmenter and classifier
(`extract_stimulations`, lines 688-906) -/

/-- One extracted stimulation record (the dictionary of lines 870-884). -/
structure StimRow where
  date_stimulated : Option (List Char)
  stimulated_formation : Option (List Char)
  top_ft : Option ℚ
  bottom_ft : Option ℚ
  stimulation_stages : Option Int
  volume : Option ℚ
  volume_units : Option (List Char)
  type_treatment : Option (List Char)
  acid_pct : Option (List Char)
  lbs_proppant : Option ℚ
  max_treatment_pressure_psi : Option ℚ
  max_treatment_rate : Option ℚ
  details : Option (List Char)
  deriving DecidableEq, Repr

/-- Python truthiness of an optional number (`0.0` is falsy). -/
def optTruthyQ (o : Option ℚ) : Bool :=
  match o with
  | some v => ¬(v = 0)
  | none => false

/-- Python truthiness of an optional string (`''` is falsy). -/
def optTruthyStr (o : Option (List Char)) : Bool :=
  match o with
  | some s => ¬(s = [])
  | none => false

/-- `(x or '').strip() or None`. -/
def strOrNone (o : Option (List Char)) : Option (List Char) :=
  match o with
  | some s => if pyStrip s = [] then none else some (pyStrip s)
  | none => none

/-- Case-insensitive single character. -/
def mchCI (c : Char) : M Unit := mmap (fun _ => ()) (mcls (fun d => lowc d = lowc c))

/-- Optional case-insensitive single character. -/
def moptCI (c : Char) : M Unit := do
  let _ ← mopt (mchCI c)
  pure ()

/-- The block-boundary pattern (lines 691-695):
`Date\s+S(?:[tl]i?mu\s*l?\s*a?\s*t?\s*e?\s*d|\s*t\s*i?\s*m\s*u\s*l\s*a\s*t\s*e\s*d)`
`|Stimulation\s+Date|Date\s+of\s+Stimulation`. -/
def dateStimSplitPat : M Unit := maltL [
  do mlitCI ("Date").data; mws1; mlitCI ("S").data
     malt
       (do let _ ← mcls (fun c => lowc c = 't' || lowc c = 'l')
           moptCI 'i'
           mlitCI ("mu").data
           mws0; moptCI 'l'; mws0; moptCI 'a'; mws0; moptCI 't'
           mws0; moptCI 'e'; mws0; mchCI 'd')
       (do mws0; mchCI 't'; mws0; moptCI 'i'; mws0; mchCI 'm'; mws0; mchCI 'u'
           mws0; mchCI 'l'; mws0; mchCI 'a'; mws0; mchCI 't'; mws0; mchCI 'e'
           mws0; mchCI 'd'),
  do mlitCI ("Stimulation").data; mws1; mlitCI ("Date").data,
  do mlitCI ("Date").data; mws1; mlitCI ("of").data; mws1;
     mlitCI ("Stimulation").data]

/-- The formation-header validation pattern (line 703):
`Stimulated\s+Form|Slimulaled\s+Form|Form(?:ation|alon|alion)|Formalion`. -/
def formHeadPat : M Unit := maltL [
  do mlitCI ("Stimulated").data; mws1; mlitCI ("Form").data,
  do mlitCI ("Slimulaled").data; mws1; mlitCI ("Form").data,
  do mlitCI ("Form").data
     maltL [mlitCI ("ation").data, mlitCI ("alon").data, mlitCI ("alion").data],
  mlitCI ("Formalion").data]

/-- `\d{1,2}[/\-]` anchored at the start of a line (line 711). -/
def dateLineStartPat : M Unit := do
  let _ ← mrange pyDigit 1 2
  let _ ← mcls (fun c => c = '/' || c = '-')
  pure ()

/-- `\d[\d,]*\.?\d*` (the token counter of line 716 and the numeric
tokenizer `[\d,]+\.?\d*` of lines 753 and 808 and 893 produce the same
matches; both are represented by this group-0 capture). -/
def numTokCommaPat : M (List Char) := do
  let a ← mplus (fun c => pyDigit c || c = ',')
  let dot ← mopt (mch '.')
  let b ← mstar pyDigit
  pure (a ++ (match dot with
    | some _ => '.' :: b
    | none => b))

/-- `Sand\s*Frac|Acid\s*Frac|Frac\b` (line 721). -/
def fracKw3Pat : M Unit := maltL [
  do mlitCI ("Sand").data; mws0; mlitCI ("Frac").data,
  do mlitCI ("Acid").data; mws0; mlitCI ("Frac").data,
  do mlitCI ("Frac").data; mwb]

/-- `\d{6,}` (line 721). -/
def sixDigitsPat : M Unit := do
  let _ ← mtake pyDigit 6
  let _ ← mstar pyDigit
  pure ()

/-- The separator class of the date-token pattern of line 728. -/
def dateSepCls (c : Char) : Bool :=
  c = '/' || c = '-' || c = '′' || c = '’' || c = cApos || c = '″' ||
    c = '‵' || c = '´' || c = cBackq || c = '‘' || c = '“'

/-- The leading date token `(\d{1,2}[seps]\d{1,2}[seps]\d{2,4})`
(line 728), captured whole. -/
def dateTokPat : M (List Char) := do
  let d1 ← mrange pyDigit 1 2
  let s1 ← mcls dateSepCls
  let d2 ← mrange pyDigit 1 2
  let s2 ← mcls dateSepCls
  let d3 ← mrange pyDigit 2 4
  pure (d1 ++ s1 :: (d2 ++ s2 :: d3))

/-- The separator class `[/\-′’′]` of the formation patterns. -/
def dateSepSmall (c : Char) : Bool :=
  c = '/' || c = '-' || c = '′' || c = '’'

/-- Formation after the date token (lines 734-737):
`(?:date)\s+([A-Za-z][A-Za-z\s]{2,25}?)\s+\d{3,}`. -/
def formationPat1 : M (List Char) := do
  let _ ← mrange pyDigit 1 2
  let _ ← mcls dateSepSmall
  let _ ← mrange pyDigit 1 2
  let _ ← mcls dateSepSmall
  let _ ← mrange pyDigit 2 4
  mws1
  let c0 ← mcls pyAlpha
  let rest ← mrangeL (fun c => pyAlpha c || pyWS c) 2 25
  mws1
  let _ ← mtake pyDigit 3
  let _ ← mstar pyDigit
  pure (c0 :: rest)

/-- Formation fallback (line 741):
`(?:\d{2,4})\s+([A-Za-z][A-Za-z\s]{2,20}?)\s+\d{3,}`. -/
def formationPat2 : M (List Char) := do
  let _ ← mrange pyDigit 2 4
  mws1
  let c0 ← mcls pyAlpha
  let rest ← mrangeL (fun c => pyAlpha c || pyWS c) 2 20
  mws1
  let _ ← mtake pyDigit 3
  let _ ← mstar pyDigit
  pure (c0 :: rest)

/-- The formation extraction of lines 733-743 (stripped at capture, the
fallback tried when the first result is missing or empty). -/
def extractFormation (dl : List Char) : Option (List Char) :=
  match research formationPat1 dl with
  | some (g, _) =>
    if pyStrip g = [] then
      match research formationPat2 dl with
      | some (g2, _) => some (pyStrip g2)
      | none => some (pyStrip g)
    else some (pyStrip g)
  | none =>
    match research formationPat2 dl with
    | some (g2, _) => some (pyStrip g2)
    | none => none

/-- `(?<!\w)ll(\d{2,})` (line 751). -/
def ocrFix1Pat : M (List Char) := do
  mnoWordBehind
  mch 'l'
  mch 'l'
  let ds ← mtake pyDigit 2
  let more ← mstar pyDigit
  pure (ds ++ more)

/-- `(?<!\w)[lI](\d{3,})` (line 752). -/
def ocrFix2Pat : M (List Char) := do
  mnoWordBehind
  let _ ← mcls (fun c => c = 'l' || c = 'I')
  let ds ← mtake pyDigit 3
  let more ← mstar pyDigit
  pure (ds ++ more)

/-- `int(x)` on a nonnegative numeric value. -/
def pyTrunc (q : ℚ) : Int := Int.tdiv q.num (q.den : Int)

/-- `\b(Barrels|BBL[Ss]?|Gallons?|GAL[Ss]?)\b` (line 766). -/
def mcap (p : M Unit) : M (List Char) := mmap (fun x => x.2) (mspan p)

def volUnitsPat : M (List Char) := do
  mwb
  let g ← mcap (maltL [
    mlitCI ("Barrels").data,
    do mlitCI ("BBL").data; let _ ← mopt (mchCI 's'); pure (),
    do mlitCI ("Gallon").data; moptCI 's',
    do mlitCI ("GAL").data; let _ ← mopt (mchCI 's'); pure ()])
  mwb
  pure g

/-- `Type\s+Treat\s*ment` (line 779). -/
def typeTreatMarkPat : M Unit := do
  mlitCI ("Type").data; mws1; mlitCI ("Treat").data; mws0; mlitCI ("ment").data

/-- `Details?` (anchored uses are via `rematch`). -/
def detailsStartPat : M Unit := do
  mlitCI ("Detail").data
  moptCI 's'

/-- `Date\s+S`. -/
def dateSPat : M Unit := do
  mlitCI ("Date").data; mws1; mlitCI ("S").data

/-- `Mesh|White|Ceramic|Resin|CRC` (line 785). -/
def meshBreakPat : M Unit := maltL [
  mlitCI ("Mesh").data, mlitCI ("White").data, mlitCI ("Ceramic").data,
  mlitCI ("Resin").data, mlitCI ("CRC").data]

/-- The treatment-line collector (lines 776-787). -/
def collectTreatLines : List (List Char) → Bool → List (List Char)
  | [], _ => []
  | l :: ls, inTreat =>
    if (research typeTreatMarkPat l).isSome then collectTreatLines ls true
    else if inTreat then
      if (rematch detailsStartPat l).isSome ∨ (rematch dateSPat l).isSome then []
      else if (research meshBreakPat l).isSome then []
      else l :: collectTreatLines ls true
    else collectTreatLines ls false

/-- `(\d{1,3}(?:\.\d+)?)` with its exact value. -/
def macidNum : M (List Char × ℚ) := do
  let ip ← mrange pyDigit 1 3
  let fr ← mopt (do
    mch '.'
    let d ← mplus pyDigit
    pure d)
  pure (match fr with
    | some d => (ip ++ '.' :: d, decValue ip d false)
    | none => (ip, decValue ip [] false))

/-- `(?:Acid|HCl)\s*[:%]?\s*(num)\s*%` (line 795). -/
def acidPat1 : M (List Char × ℚ) := do
  malt (mlitCI ("Acid").data) (mlitCI ("HCl").data)
  mws0
  let _ ← mopt (mcls (fun c => c = ':' || c = '%'))
  mws0
  let g ← macidNum
  mws0
  mch '%'
  pure g

/-- `(num)\s*%\s*(?:Acid|HCl)` (line 797). -/
def acidPat2 : M (List Char × ℚ) := do
  let g ← macidNum
  mws0
  mch '%'
  mws0
  malt (mlitCI ("Acid").data) (mlitCI ("HCl").data)
  pure g

/-- `\s*Acid\b` (anchored, line 798). -/
def acidStartPat : M Unit := do
  mws0
  mlitCI ("Acid").data
  mwb

/-- `\bAcid\s+(num)\b` (lines 799 and 836). -/
def acidPat3 : M (List Char × ℚ) := do
  mwb
  mlitCI ("Acid").data
  mws1
  let g ← macidNum
  mwb
  pure g

/-- `(Sand\s*Frac|Acid\s*Frac|Frac|Acid)\b` (line 791). -/
def typeTreatPat : M (List Char) := do
  let g ← mcap (maltL [
    do mlitCI ("Sand").data; mws0; mlitCI ("Frac").data,
    do mlitCI ("Acid").data; mws0; mlitCI ("Frac").data,
    mlitCI ("Frac").data,
    mlitCI ("Acid").data])
  mwb
  pure g

/-- One line of the treatment loop (lines 789-805): first treatment-type
keyword, first in-range acid percentage (per line the three patterns are
tried in order, and an out-of-range match blocks the later patterns for
that line only). -/
def treatLineStep (st : Option (List Char) × Option (List Char × ℚ))
    (l : List Char) : Option (List Char) × Option (List Char × ℚ) :=
  let tt := match st.1 with
    | some t => some t
    | none => (research typeTreatPat l).map (fun r => pyStrip r.1)
  let ap := match st.2 with
    | some a => some a
    | none =>
      let am := match research acidPat1 l with
        | some (g, _) => some g
        | none =>
          match research acidPat2 l with
          | some (g, _) => some g
          | none =>
            if (rematch acidStartPat l).isSome then
              match research acidPat3 l with
              | some (g, _) => some g
              | none => none
            else none
      match am with
      | some g => if 0 < g.2 ∧ g.2 ≤ 100 then some g else none
      | none => none
  (tt, ap)

/-- The block-level acid fallback (lines 831-842). -/
def blockAcid (block : List Char) : Option (List Char × ℚ) :=
  let am := match research acidPat1 block with
    | some (g, _) => some g
    | none =>
      match research acidPat2 block with
      | some (g, _) => some g
      | none =>
        match research acidPat3 block with
        | some (g, _) => some g
        | none => none
  match am with
  | some g => if 0 < g.2 ∧ g.2 ≤ 100 then some g else none
  | none => none

/-- The skip pattern of the details loop (lines 856-858). -/
def detailsSkipPat : M Unit := maltL [
  do mlitCI ("Stimulated").data; mws1; mlitCI ("Formation").data,
  do mlitCI ("Volume").data; mws1; mlitCI ("Units").data,
  do mlitCI ("Maximum").data; mws1; mlitCI ("Treatment").data,
  do mlitCI ("Lbs").data; mws1; mlitCI ("Proppant").data,
  do mlitCI ("Stimulation").data; mws1; mlitCI ("Stages").data,
  do mlitCI ("Top").data; mws0; mch '('; mlitCI ("Ft").data; mch ')',
  do mlitCI ("Bottom").data; mws0; mch '('; mlitCI ("Ft").data; mch ')']

/-- The break pattern of the details loop (line 854):
`Date\s+S|ADDITIONAL|I hereby|Type\s+Treatment|^\s*$`. -/
def detailsBreakPat : M Unit := maltL [
  dateSPat,
  mlitCI ("ADDITIONAL").data,
  mlitCI ("I hereby").data,
  do mlitCI ("Type").data; mws1; mlitCI ("Treatment").data,
  do let _ ← mstar pyWS
     mEnd]

/-- `re.sub(r'^Details?\s*', '', l).strip()` (line 849). -/
def detailsStripHead (l : List Char) : List Char :=
  match rematch (do detailsStartPat; mws0) l with
  | some (_, st) => pyStrip st.rest
  | none => pyStrip l

/-- The details collector (lines 844-861). -/
def collectDetails : List (List Char) → Bool → List (List Char)
  | [], _ => []
  | l :: ls, inDet =>
    if (rematch detailsStartPat l).isSome then
      let rest := detailsStripHead l
      if ¬(rest = []) ∧ rest.any pyDigit then rest :: collectDetails ls true
      else collectDetails ls true
    else if inDet then
      if (rematch detailsBreakPat l).isSome then []
      else if (research detailsSkipPat l).isSome then collectDetails ls true
      else if l.any pyDigit then l :: collectDetails ls true
      else collectDetails ls true
    else collectDetails ls false

/-- Processing of one block between boundaries (lines 698-884),
`none` when the block is discarded. -/
def processBlock (block : List Char) : Option StimRow :=
  let lines := ((splitOnChar '\n' block).map pyStrip).filter (fun l => ¬(l = []))
  if lines.length < 2 then none
  else if ¬((lines.take 5).any (fun l => (research formHeadPat l).isSome)) then none
  else
    let dataLine :=
      match lines.find? (fun l => (rematch dateLineStartPat l).isSome) with
      | some l => some l
      | none =>
        match ((lines.drop 1).take 7).find?
            (fun l => 4 ≤ (refindall numTokCommaPat l).length) with
        | some l => some l
        | none =>
          ((lines.drop 1).take 7).find? (fun l =>
            (research fracKw3Pat l).isSome ∧ (research sixDigitsPat l).isSome)
    match dataLine with
    | none => none
    | some data_line =>
      let date_stim : Option (List Char) :=
        match rematch dateTokPat data_line with
        | some (tok, _) =>
          let raw_date := tok.map (fun c =>
            if pyDigit c || c = '/' || c = '-' then c else '/')
          match normalize_date_to_iso raw_date with
          | some d => some d
          | none => some raw_date
        | none => none
      let formation := extractFormation data_line
      let after :=
        match formation with
        | some f =>
          if ¬(f = []) then
            match findSub (pyLower data_line) (pyLower f) with
            | some idx => data_line.drop (idx + f.length)
            | none => data_line
          else data_line
        | none => data_line
      let after := resub (fun ds => '1' :: '1' :: ds) ocrFix1Pat after
      let after := resub (fun ds => '1' :: ds) ocrFix2Pat after
      let nums := (refindall numTokCommaPat after).filterMap parse_num
      let rem := nums.dropWhile (fun v => v < 100 ∨ (1990 ≤ v ∧ v ≤ 2100))
      let top_ft := match rem[0]? with
        | some v => if 100 < v then some v else none
        | none => none
      let bottom_ft := match rem[1]? with
        | some v => if 100 < v then some v else none
        | none => none
      let stim_stages := match rem[2]? with
        | some v => if v < 200 then some (pyTrunc v) else none
        | none => none
      let volume := rem[3]?
      let volume_units := (research volUnitsPat block).map (fun r => r.1)
      let treat_lines := collectTreatLines lines false
      let (type_treatment, acid0) := treat_lines.foldl treatLineStep (none, none)
      let treat_blob := joinWithChar ' ' treat_lines
      let treat_vals := (refindall numTokCommaPat treat_blob).filterMap parse_num
      let treat_vals := match acid0 with
        | some g =>
          if g.2 ∈ treat_vals then treat_vals.erase g.2 else treat_vals
        | none => treat_vals
      let lbs_proppant := match treat_vals with
        | [] => none
        | _ => treat_vals.find? (fun v => 100000 < v)
      let rest := match lbs_proppant with
        | some lv => treat_vals.filter (fun v => ¬(v = lv))
        | none => treat_vals
      let pr := match treat_vals with
        | [] => ((none : Option ℚ), (none : Option ℚ))
        | _ => rest.foldl (fun (pr : Option ℚ × Option ℚ) v =>
            if 1000 < v ∧ v < 20000 ∧ pr.1 = none then (some v, pr.2)
            else if 0 < v ∧ v < 200 ∧ pr.2 = none then (pr.1, some v)
            else pr) (none, none)
      let acid_pct := match acid0 with
        | some g => some g.1
        | none => (blockAcid block).map (fun g => g.1)
      let detail_lines := collectDetails lines false
      let details := match detail_lines with
        | [] => none
        | _ => some (joinWith ("; ").data detail_lines)
      if ¬(optTruthyQ lbs_proppant || optTruthyQ volume || optTruthyStr formation) then
        none
      else some {
        date_stimulated := strOrNone date_stim,
        stimulated_formation := strOrNone formation,
        top_ft := top_ft,
        bottom_ft := bottom_ft,
        stimulation_stages := stim_stages,
        volume := volume,
        volume_units := volume_units,
        type_treatment := type_treatment,
        acid_pct := acid_pct,
        lbs_proppant := lbs_proppant,
        max_treatment_pressure_psi := pr.1,
        max_treatment_rate := pr.2,
        details := details }

/-- `(Sand\s*Frac|Acid\s*Frac|Frac|Acid)\s+([\d,\s]+)` (lines 888-891). -/
def fallbackPat : M (List Char × List Char) := do
  let tt ← mcap (maltL [
    do mlitCI ("Sand").data; mws0; mlitCI ("Frac").data,
    do mlitCI ("Acid").data; mws0; mlitCI ("Frac").data,
    mlitCI ("Frac").data,
    mlitCI ("Acid").data])
  let _ ← mplus pyWS
  let nums ← mplus (fun c => pyDigit c || c = ',' || pyWS c)
  pure (tt, nums)

/-- An all-`none` stimulation row. -/
def emptyStimRow : StimRow := {
  date_stimulated := none, stimulated_formation := none, top_ft := none,
  bottom_ft := none, stimulation_stages := none, volume := none,
  volume_units := none, type_treatment := none, acid_pct := none,
  lbs_proppant := none, max_treatment_pressure_psi := none,
  max_treatment_rate := none, details := none }

/-- The per-match step of the secondary pass (lines 892-904): the state
carries the set of already-captured proppant masses and the extra rows. -/
def fallbackStep (st : List ℚ × List StimRow) (g : List Char × List Char) :
    List ℚ × List StimRow :=
  match ((refindall numTokCommaPat g.2).filterMap parse_num).filter
      (fun v => 100000 < v) with
  | [] => st
  | n0 :: restNums =>
    if n0 ∈ st.1 then st
    else
      (n0 :: st.1, st.2 ++ [{ emptyStimRow with
        type_treatment := some (pyStrip g.1),
        lbs_proppant := some n0,
        max_treatment_pressure_psi := match restNums with
          | n1 :: _ => if 1000 < n1 ∧ n1 < 20000 then some n1 else none
          | [] => none,
        max_treatment_rate := match restNums with
          | _ :: n2 :: _ => if 0 < n2 ∧ n2 < 200 then some n2 else none
          | _ => none }])

/-- The set of proppant masses already captured by the block pass
(lines 887). -/
def existingLbs (rows : List StimRow) : List ℚ :=
  rows.filterMap (fun r =>
    match r.lbs_proppant with
    | some v => if v = 0 then none else some v
    | none => none)

/-- The secondary whole-text pass (lines 886-904): extra rows for
proppant masses not already captured. -/
def fallbackRows (text : List Char) (rows : List StimRow) : List StimRow :=
  (((refinditer fallbackPat text).map (fun r => r.1)).foldl fallbackStep
    (existingLbs rows, ([] : List StimRow))).2

/-- `extract_stimulations` (lines 688-906). -/
def extract_stimulations (text : List Char) : List StimRow :=
  let parts := resplit dateStimSplitPat text
  let blocks := ((parts.map pyStrip).filter (fun p => ¬(p = []))).drop 1
  let rows := blocks.filterMap processBlock
  rows ++ fallbackRows text rows

/-! ## `pdf_extractor.py` — table reconciler (lines 910-949) -/

/-- A table cell from the layout collaborator: a nullable string. -/
abbrev PyCell := Option (List Char)

abbrev PyRow := List PyCell

abbrev PyTable := List PyRow

/-- Python truthiness of a nullable cell string. -/
def cellTruthy (c : PyCell) : Bool :=
  match c with
  | some s => ¬(s = [])
  | none => false

/-- `TABLE_LABELS` (lines 910-922), in insertion order. -/
def TABLE_LABELS : List (List Char × List Char) := [
  (("api").data, ("api_number").data),
  (("api number").data, ("api_number").data),
  (("api #").data, ("api_number").data),
  (("well name").data, ("well_name").data),
  (("latitude").data, ("latitude_raw").data),
  (("lat").data, ("latitude_raw").data),
  (("longitude").data, ("longitude_raw").data),
  (("long").data, ("longitude_raw").data),
  (("address").data, ("address").data),
  (("field address").data, ("address").data),
  (("county").data, ("county").data),
  (("field").data, ("field").data),
  (("field/pool").data, ("field").data),
  (("operator").data, ("operator").data),
  (("permit number").data, ("permit_number").data),
  (("permit #").data, ("permit_number").data),
  (("permit date").data, ("permit_date").data),
  (("total depth").data, ("total_depth").data),
  (("depth").data, ("total_depth").data),
  (("formation").data, ("formation").data)]

/-- The label-to-field dictionary accumulated by the reconciler. -/
abbrev KV := List (List Char × List Char)

def kvLookup (kv : KV) (key : List Char) : Option (List Char) :=
  (kv.find? (fun e => e.1 = key)).map (fun e => e.2)

/-- `dict.setdefault`: insert only when the key is absent. -/
def kvSetdefault (kv : KV) (key val : List Char) : KV :=
  if (kvLookup kv key).isSome then kv else kv ++ [(key, val)]

/-- The label-matching loop (lines 941-944): the first dictionary entry
contained in the row label or containing it wins, `setdefault`
semantics. -/
def matchLabel (kv : KV) (label val : List Char) : KV :=
  match TABLE_LABELS.find? (fun e =>
      containsSub label e.1 || containsSub e.1 label) with
  | some e => kvSetdefault kv e.2 val
  | none => kv

/-- One row of a key/value table (lines 934-944). -/
def kvRowStep (st : List (List Char) × KV) (row : PyRow) : List (List Char) × KV :=
  match row with
  | c0 :: c1 :: _ =>
    if cellTruthy c0 ∧ cellTruthy c1 then
      let r0 := c0.getD []
      let label := pyLower (pyStrip (collapseWS r0))
      let val := pyStrip (c1.getD [])
      if val = [] then st
      else (st.1 ++ [r0 ++ ' ' :: val], matchLabel st.2 label val)
    else st
  | _ => st

/-- Flattening of one row of a non-key/value table (line 947). -/
def flattenRow (row : PyRow) : List Char :=
  joinWithChar ' ' ((row.filter cellTruthy).map (fun c => pyStrip (c.getD [])))

/-- Processing of one page table (lines 930-947): tables of fewer than
two rows are skipped; a table whose first row has exactly two cells is
folded as key/value rows; any other table is flattened to text lines. -/
def tableStep (st : List (List Char) × KV) (table : PyTable) : List (List Char) × KV :=
  if table.length < 2 then st
  else
    match table with
    | [] => st
    | row0 :: _ =>
      if row0.length = 2 then table.foldl kvRowStep st
      else (st.1 ++ table.map flattenRow, st.2)

/-- `extract_from_tables` (lines 925-949). -/
def extract_from_tables (tables : List PyTable) : List (List Char) × KV :=
  tables.foldl tableStep ([], [])

/-! ## `pdf_extractor.py` — the api-number slice of `extract_from_pdf`
(lines 953-1077) -/

/-- `dict` merge with `setdefault` per key (lines 979-980). -/
def kvMerge (acc kv : KV) : KV :=
  kv.foldl (fun a e => kvSetdefault a e.1 e.2) acc

/-- The `api_number` dataflow of `extract_from_pdf`, given the
layout-collaborator outputs (per-page extracted text and tables, the
document-unreadable and OCR-fallback paths out of scope at default
configuration): page texts are concatenated, table lines appended, the
cascade `extract_api` runs on the full text, and a key/value table
entry backfills the field only when the cascade produced nothing
(lines 966-1048). -/
def extract_from_pdf_api (pageTexts : List (List Char))
    (pageTables : List (List PyTable)) : Option (List Char) :=
  let full_text := pageTexts.foldl
    (fun acc t => if ¬(t = []) then acc ++ '\n' :: t else acc) []
  let pageResults := pageTables.map extract_from_tables
  let all_table_lines := pageResults.foldl (fun acc r => acc ++ r.1) []
  let all_kv := pageResults.foldl (fun acc r => kvMerge acc r.2) []
  let full_text := if ¬(all_table_lines = []) then
      full_text ++ '\n' :: joinWithChar '\n' all_table_lines
    else full_text
  if pyStrip full_text = [] then none
  else
    match extract_api full_text with
    | some a => some a
    | none =>
      match kvLookup all_kv ("api_number").data with
      | some v => if ¬(v = []) then some (pyStrip v) else none
      | none => none

/-! ## `preprocess.py` — cleaning-pass value normalizers -/

/-- A Python value as handled by the cleaners: `None`, a string, or a
number. -/
inductive PyVal
  | vNone
  | vStr (s : List Char)
  | vNum (q : ℚ)
  deriving DecidableEq

/-- The missing-value spellings of `normalize_missing` (line 54). -/
def missingSet : List (List Char) :=
  [[], ("n/a").data, ("na").data, ("null").data, ("none").data,
    ("-").data, ("--").data]

/-- `normalize_missing` (`preprocess.py` lines 47-61). -/
def normalize_missing (value : PyVal) (fieldType : List Char) : PyVal :=
  match value with
  | .vNone => .vNone
  | .vStr s =>
    let cleaned := pyLower (pyStrip s)
    if cleaned ∈ missingSet then
      (if fieldType = ("text").data then .vStr (("N/A").data) else .vNum 0)
    else .vStr s
  | .vNum q => .vNum q

/-- `^\d{4}-\d{2}-\d{2}$` (line 106). -/
def isoShapePat : M Unit := do
  let _ ← mtake pyDigit 4
  mch '-'
  let _ ← mtake pyDigit 2
  mch '-'
  let _ ← mtake pyDigit 2
  mEnd

def isoShape (s : List Char) : Bool := (rematch isoShapePat s).isSome

/-- `strptime` regex for `%m`: `1[0-2]|0[1-9]|[1-9]`. -/
def mMonthPat : M Int := maltL [
  do mch '1'
     let c ← mcls (fun c => '0' ≤ c && c ≤ '2')
     pure ((10 + (c.toNat - 48) : Nat) : Int),
  do mch '0'
     let c ← mcls (fun c => '1' ≤ c && c ≤ '9')
     pure (((c.toNat - 48) : Nat) : Int),
  do let c ← mcls (fun c => '1' ≤ c && c ≤ '9')
     pure (((c.toNat - 48) : Nat) : Int)]

/-- `strptime` regex for `%d`: `3[0-1]|[1-2]\d|0[1-9]|[1-9]| [1-9]`. -/
def mDayPat : M Int := maltL [
  do mch '3'
     let c ← mcls (fun c => c = '0' || c = '1')
     pure ((30 + (c.toNat - 48) : Nat) : Int),
  do let a ← mcls (fun c => c = '1' || c = '2')
     let b ← mcls pyDigit
     pure ((((a.toNat - 48) * 10 + (b.toNat - 48)) : Nat) : Int),
  do mch '0'
     let c ← mcls (fun c => '1' ≤ c && c ≤ '9')
     pure (((c.toNat - 48) : Nat) : Int),
  do let c ← mcls (fun c => '1' ≤ c && c ≤ '9')
     pure (((c.toNat - 48) : Nat) : Int),
  do mch ' '
     let c ← mcls (fun c => '1' ≤ c && c ≤ '9')
     pure (((c.toNat - 48) : Nat) : Int)]

/-- `strptime` regex for `%Y`: exactly four digits. -/
def mYear4Pat : M Int := do
  let ds ← mtake pyDigit 4
  pure ((pyInt.natOfDigits ds : Nat) : Int)

/-- `strptime` regex for `%y`: exactly two digits, pivoted at 69. -/
def mYear2Pat : M Int := do
  let ds ← mtake pyDigit 2
  let y := (pyInt.natOfDigits ds : Nat)
  pure (if y < 69 then ((y : Int) + 2000) else ((y : Int) + 1900))

/-- One `strptime(s, "%m<sep>%d<sep>%Y-or-%y")` attempt: the regex must
consume the whole string and the date must construct. -/
def strptimeMDY (sep : Char) (fourYear : Bool) (s : List Char) :
    Option (Int × Int × Int) :=
  let pat : M (Int × Int × Int) := do
    let mo ← mMonthPat
    mch sep
    let d ← mDayPat
    mch sep
    let y ← (if fourYear then mYear4Pat else mYear2Pat)
    pure (y, mo, d)
  match rematch pat s with
  | some (v, st) =>
    if st.rest = [] then
      (if datetimeValid v.1 v.2.1 v.2.2 then some v else none)
    else none
  | none => none

/-- The English month names matched by `%B` (case-insensitively). -/
def monthNames : List (List Char × Int) := [
  (("January").data, 1), (("February").data, 2), (("March").data, 3),
  (("April").data, 4), (("May").data, 5), (("June").data, 6),
  (("July").data, 7), (("August").data, 8), (("September").data, 9),
  (("October").data, 10), (("November").data, 11), (("December").data, 12)]

def mMonthNamePat : M Int :=
  maltL (monthNames.map (fun e => do
    mlitCI e.1
    pure e.2))

/-- `strptime(s, "%B %d, %Y")` (format whitespace matches `\s+`). -/
def strptimeBdY (s : List Char) : Option (Int × Int × Int) :=
  let pat : M (Int × Int × Int) := do
    let mo ← mMonthNamePat
    mws1
    let d ← mDayPat
    mch ','
    mws1
    let y ← mYear4Pat
    pure (y, mo, d)
  match rematch pat s with
  | some (v, st) =>
    if st.rest = [] then
      (if datetimeValid v.1 v.2.1 v.2.2 then some v else none)
    else none
  | none => none

/-- First successful format attempt, as `strftime("%Y-%m-%d")` output. -/
def firstFmt (attempts : List (Option (Int × Int × Int))) : Option (List Char) :=
  match firstSome attempts with
  | some v => some (fmtISO v.1 v.2.1 v.2.2)
  | none => none

/-- `normalize_date` (`preprocess.py` lines 97-134). -/
def normalize_date (date : PyVal) : List Char :=
  match date with
  | .vStr s0 =>
    if s0 = [] then ("N/A").data
    else
      let s := pyStrip s0
      if pyLower s ∈ [("n/a").data, ("na").data, ("null").data,
          ("none").data, ("-").data, ("--").data] then ("N/A").data
      else if isoShape s then s
      else
        match firstFmt [strptimeMDY '/' true s, strptimeMDY '-' true s,
            strptimeMDY '/' false s, strptimeMDY '-' false s] with
        | some r => r
        | none =>
          let cleaned := s.map (fun c =>
            if c = cApos ∨ c = '’' ∨ c = '′' ∨ c = '″' ∨ c = '“' then '/' else c)
          match (if ¬(cleaned = s) then
              firstFmt [strptimeMDY '/' true cleaned, strptimeMDY '/' false cleaned]
            else none) with
          | some r => r
          | none =>
            match firstFmt [strptimeBdY s] with
            | some r => r
            | none => s
  | _ => ("N/A").data

/-! ## The identifier shape `\d{2}-\d{3}-\d{5}` and its lemmas -/

/-- Consume exactly `n` digits, returning the remainder. -/
def consumeDigits : List Char → Nat → Option (List Char)
  | l, 0 => some l
  | [], _ + 1 => none
  | c :: cs, n + 1 => if pyDigit c then consumeDigits cs n else none

/-- Full match of `\d{2}-\d{3}-\d{5}`. -/
def apiShape (s : List Char) : Bool :=
  match consumeDigits s 2 with
  | some ('-' :: r1) =>
    (match consumeDigits r1 3 with
     | some ('-' :: r2) =>
       (match consumeDigits r2 5 with
        | some [] => true
        | _ => false)
     | _ => false)
  | _ => false

theorem consumeDigits_append {g : List Char} :
    ∀ {n : Nat} {r : List Char}, g.length = n → (∀ c ∈ g, pyDigit c = true) →
      consumeDigits (g ++ r) n = some r := by
  induction g with
  | nil =>
    intro n r hl _
    subst hl
    simp [consumeDigits]
  | cons c cs ih =>
    intro n r hl hd
    subst hl
    show consumeDigits (c :: (cs ++ r)) (cs.length + 1) = some r
    rw [consumeDigits]
    rw [hd c (by simp)]
    simp only [if_true]
    exact ih rfl (fun d hdm => hd d (by simp [hdm]))

/-- Strings assembled by `fmt3` from digit groups of lengths 2, 3 and 5
match the identifier shape. -/
theorem apiShape_fmt3 {g1 g2 g3 : List Char}
    (h1 : g1.length = 2) (d1 : ∀ c ∈ g1, pyDigit c = true)
    (h2 : g2.length = 3) (d2 : ∀ c ∈ g2, pyDigit c = true)
    (h3 : g3.length = 5) (d3 : ∀ c ∈ g3, pyDigit c = true) :
    apiShape (fmt3 g1 g2 g3) = true := by
  unfold apiShape fmt3
  rw [consumeDigits_append h1 d1]
  simp only
  rw [consumeDigits_append h2 d2]
  simp only
  rw [← List.append_nil g3, consumeDigits_append h3 d3]

theorem take_digits {l : List Char} (hd : ∀ c ∈ l, pyDigit c = true) (n : Nat) :
    ∀ c ∈ l.take n, pyDigit c = true :=
  fun c hc => hd c (List.take_subset n l hc)

theorem drop_digits {l : List Char} (hd : ∀ c ∈ l, pyDigit c = true) (n : Nat) :
    ∀ c ∈ l.drop n, pyDigit c = true :=
  fun c hc => hd c (List.drop_subset n l hc)

/-- Every output of the raw-digit reformatting branch on a 10- or
11-digit capture matches the identifier shape. -/
theorem formatRawApi_shape {raw : List Char}
    (hd : ∀ c ∈ raw, pyDigit c = true)
    (hl : raw.length = 10 ∨ raw.length = 11) :
    apiShape (formatRawApi raw) = true := by
  have h10 : 10 ≤ raw.length := by omega
  unfold formatRawApi
  split_ifs with hc1 hc2
  · apply apiShape_fmt3
    · simp [hc1]
    · exact take_digits hd 2
    · simp [List.length_take, List.length_drop]; omega
    · exact take_digits (drop_digits hd 2) 3
    · simp [List.length_take, List.length_drop]; omega
    · exact take_digits (drop_digits hd 5) 5
  · obtain ⟨h11, _⟩ := hc2
    apply apiShape_fmt3
    · rfl
    · intro c hc
      rcases List.mem_cons.mp hc with h | h
      · subst h; rfl
      · rcases List.mem_singleton.mp h with h'
        subst h'; rfl
    · simp [List.length_take, List.length_drop]; omega
    · exact take_digits (drop_digits hd 3) 3
    · simp [List.length_take, List.length_drop]; omega
    · exact take_digits (drop_digits hd 6) 5
  · apply apiShape_fmt3
    · simp [List.length_take]; omega
    · exact take_digits hd 2
    · simp [List.length_take, List.length_drop]; omega
    · exact take_digits (drop_digits hd 2) 3
    · simp [List.length_take, List.length_drop]; omega
    · exact take_digits (drop_digits hd 5) 5

/-! ## Concrete inputs used by the claim scenarios -/

/-- A document text with one stimulation block under a `Date Stimulated`
boundary and a `Stimulated Formation` header line. -/
def stimScenarioText : List Char :=
  ("Well Report\nDate Stimulated Stimulated Formation\n6/1/2019 Bakken 9500 9800 12 450000").data

def stimScenarioRow : StimRow := {
  date_stimulated := some (("2019-06-01").data),
  stimulated_formation := some (("Bakken").data),
  top_ft := some 9500,
  bottom_ft := some 9800,
  stimulation_stages := some 12,
  volume := some 450000,
  volume_units := none, type_treatment := none, acid_pct := none,
  lbs_proppant := none, max_treatment_pressure_psi := none,
  max_treatment_rate := none, details := none }

/-- A document text whose only stimulation block carries a formation but
no proppant mass and no volume. -/
def stimFormationOnlyText : List Char :=
  ("A\nDate Stimulated Stimulated Formation\n6/1/2019 Bakken 9500").data

/-- The single row extracted from `stimFormationOnlyText`: a formation but
no proppant mass and no volume. -/
def stimFormationOnlyRow : StimRow := {
  date_stimulated := some (("2019-06-01").data),
  stimulated_formation := some (("Bakken").data),
  top_ft := some 9500,
  bottom_ft := none, stimulation_stages := none, volume := none,
  volume_units := none, type_treatment := none, acid_pct := none,
  lbs_proppant := none, max_treatment_pressure_psi := none,
  max_treatment_rate := none, details := none }

/-- A page table in key/value shape whose value is not an identifier. -/
def backfillTable : PyTable :=
  [[some (("API #").data), some (("hello").data)],
   [some (("x").data), some (("y").data)]]

/-- A page table whose first row has two cells but whose second row has
three. -/
def kvTableWithWideRow : PyTable :=
  [[some (("api").data), some (("099").data)],
   [some (("a").data), some (("b").data), some (("c").data)]]

/-! ## Claim theorems -/

/-- C1 (counterexample): the invariant fails for identifiers backfilled
from table key/value pairs — on a document whose only table carries the
row `API # | hello`, `extract_from_pdf` stores the identifier `hello`,
which does not match `\d{2}-\d{3}-\d{5}`. -/
theorem api_backfill_counterexample :
    extract_from_pdf_api [("some text").data] [[backfillTable]] =
      some (("hello").data) ∧
    apiShape (("hello").data) = false := by
  constructor
  · decide
  · decide

set_option maxHeartbeats 4000000 in
attribute [local semireducible] Rat.add Rat.mul Rat.inv Rat.sub Rat.ofScientific in
/-- C5: the stimulation block `6/1/2019 Bakken 9500 9800 12 450000`
under a valid `Date Stimulated` boundary and a `Stimulated Formation`
header line yields exactly one record with date `2019-06-01`, formation
`Bakken`, interval 9500-9800 feet, 12 stages and volume 450000. -/
theorem stimulation_scenario :
    extract_stimulations stimScenarioText = [stimScenarioRow] := by
  decide

/-- `List.dropWhile` either empties the list or stops at an element on
which the predicate fails. -/
theorem dropWhile_head_false (p : Char → Bool) :
    ∀ l : List Char, l.dropWhile p = [] ∨
      ∃ c rest, l.dropWhile p = c :: rest ∧ p c = false := by
  intro l
  induction l with
  | nil => exact Or.inl rfl
  | cons c cs ih =>
    rw [List.dropWhile_cons]
    by_cases hc : p c
    · simpa [hc] using ih
    · right
      exact ⟨c, cs, by simp [hc], by simpa using hc⟩

/-- `List.dropWhile` keeps the last element of its input when it does not
empty the list. -/
theorem dropWhile_append_last {p : Char → Bool} {c : Char} :
    ∀ ys : List Char, (ys ++ [c]).dropWhile p = [] ∨
      ∃ zs, (ys ++ [c]).dropWhile p = zs ++ [c] := by
  intro ys
  induction ys with
  | nil =>
    by_cases hc : p c
    · left; simp [List.dropWhile_cons, hc]
    · right; exact ⟨[], by simp [List.dropWhile_cons, hc]⟩
  | cons y ys ih =>
    rw [List.cons_append, List.dropWhile_cons]
    by_cases hy : p y
    · simpa [hy] using ih
    · right; exact ⟨y :: ys, by simp [hy]⟩

/-- `str.strip()` is idempotent. -/
theorem pyStrip_idem (l : List Char) : pyStrip (pyStrip l) = pyStrip l := by
  rcases dropWhile_head_false pyWS l with h1 | ⟨c, rest, h1, hc⟩
  · have h0 : pyStrip l = [] := by unfold pyStrip; rw [h1]; rfl
    rw [h0]; rfl
  · have h2 : (l.dropWhile pyWS).reverse = rest.reverse ++ [c] := by
      rw [h1, List.reverse_cons]
    rcases dropWhile_append_last (p := pyWS) (c := c) rest.reverse with h3 | ⟨zs, h3⟩
    · have h0 : pyStrip l = [] := by unfold pyStrip; rw [h2, h3]; rfl
      rw [h0]; rfl
    · have h4 : (zs ++ [c]).dropWhile pyWS = zs ++ [c] := by
        rcases dropWhile_head_false pyWS (rest.reverse ++ [c]) with h5 | ⟨d, r2, h5, hd⟩
        · rw [h3] at h5; exact absurd h5 (by simp)
        · have h6 : zs ++ [c] = d :: r2 := h3.symm.trans h5
          rw [h6, List.dropWhile_cons]
          simp [hd]
      have hstrip : pyStrip l = c :: zs.reverse := by
        unfold pyStrip
        rw [h2, h3, List.reverse_append]
        simp
      rw [hstrip]
      unfold pyStrip
      have e1 : (c :: zs.reverse).dropWhile pyWS = c :: zs.reverse := by
        rw [List.dropWhile_cons]
        simp [hc]
      rw [e1, List.reverse_cons, List.reverse_reverse, h4]
      simp

/-- Every formation string produced by the formation regexes of
`extract_stimulations` is already stripped (lines 722-729 strip each
candidate before storing it). -/
theorem extractFormation_stripped {dl f : List Char}
    (h : extractFormation dl = some f) : pyStrip f = f := by
  unfold extractFormation at h
  split at h
  · split_ifs at h
    · split at h
      · rw [Option.some_inj] at h; subst h; exact pyStrip_idem _
      · rw [Option.some_inj] at h; subst h; exact pyStrip_idem _
    · rw [Option.some_inj] at h; subst h; exact pyStrip_idem _
  · split at h
    · rw [Option.some_inj] at h; subst h; exact pyStrip_idem _
    · exact Option.noConfusion h

/-- If the raw extracted formation is truthy then so is the stored
`(formation or '').strip() or None` value. -/
theorem optTruthyStr_strOrNone_extractFormation {dl : List Char}
    (h : optTruthyStr (extractFormation dl) = true) :
    optTruthyStr (strOrNone (extractFormation dl)) = true := by
  cases hf : extractFormation dl with
  | none => rw [hf] at h; simp [optTruthyStr] at h
  | some f =>
    rw [hf] at h
    have hne : ¬(f = []) := by simpa [optTruthyStr] using h
    have hst : pyStrip f = f := extractFormation_stripped hf
    simp [strOrNone, optTruthyStr, hst, hne]

/-- A row emitted by the block pass carries proppant mass, volume or
formation: the guard at lines 864-865 drops all other blocks. -/
theorem processBlock_keeps {b : List Char} {r : StimRow}
    (h : processBlock b = some r) :
    optTruthyQ r.lbs_proppant = true ∨ optTruthyQ r.volume = true ∨
      optTruthyStr r.stimulated_formation = true := by
  simp only [processBlock] at h
  split_ifs at h
  split at h
  · exact Option.noConfusion h
  · rename_i data_line hdl
    split_ifs at h with hg
    rw [Option.some_inj] at h
    subst h
    simp only [Bool.or_eq_true] at hg
    rcases hg with (hg | hg) | hg
    · left; exact hg
    · right; left; exact hg
    · right; right; exact optTruthyStr_strOrNone_extractFormation hg

/-- One step of the secondary pass preserves the nonemptiness invariant:
a new row is only appended with a proppant mass above 100000. -/
theorem fallbackStep_keeps (st : List ℚ × List StimRow) (g : List Char × List Char)
    (hst : ∀ r ∈ st.2, optTruthyQ r.lbs_proppant = true ∨ optTruthyQ r.volume = true ∨
      optTruthyStr r.stimulated_formation = true) :
    ∀ r ∈ (fallbackStep st g).2, optTruthyQ r.lbs_proppant = true ∨
      optTruthyQ r.volume = true ∨ optTruthyStr r.stimulated_formation = true := by
  intro r hr
  unfold fallbackStep at hr
  split at hr
  · exact hst r hr
  · rename_i n0 restNums hnums
    split_ifs at hr
    · exact hst r hr
    · rw [List.mem_append] at hr
      rcases hr with hr | hr
      · exact hst r hr
      · rw [List.mem_singleton] at hr
        subst hr
        left
        have hmem : n0 ∈ ((refindall numTokCommaPat g.2).filterMap parse_num).filter
            (fun v => 100000 < v) := by
          rw [hnums]; exact List.mem_cons_self _ _
        have hn0 : (100000 : ℚ) < n0 := by
          simpa using (List.mem_filter.mp hmem).2
        have hne : ¬(n0 = 0) := by
          intro h0; rw [h0] at hn0; norm_num at hn0
        simpa [optTruthyQ] using hne

/-- Folding the secondary pass over any match list preserves the
nonemptiness invariant of the accumulated rows. -/
theorem fallbackFold_keeps :
    ∀ (gs : List (List Char × List Char)) (st : List ℚ × List StimRow),
      (∀ r ∈ st.2, optTruthyQ r.lbs_proppant = true ∨ optTruthyQ r.volume = true ∨
        optTruthyStr r.stimulated_formation = true) →
      ∀ r ∈ (gs.foldl fallbackStep st).2, optTruthyQ r.lbs_proppant = true ∨
        optTruthyQ r.volume = true ∨ optTruthyStr r.stimulated_formation = true := by
  intro gs
  induction gs with
  | nil => intro st hst; simpa using hst
  | cons g gs ih =>
    intro st hst
    rw [List.foldl_cons]
    exact ih _ (fallbackStep_keeps st g hst)

/-- Every row of the secondary pass carries a proppant mass. -/
theorem fallbackRows_keeps (text : List Char) (rows : List StimRow) :
    ∀ r ∈ fallbackRows text rows, optTruthyQ r.lbs_proppant = true ∨
      optTruthyQ r.volume = true ∨ optTruthyStr r.stimulated_formation = true := by
  intro r hr
  unfold fallbackRows at hr
  exact fallbackFold_keeps _ _ (fun r2 hr2 => absurd hr2 (List.not_mem_nil _)) r hr

/-- C2: every stimulation record returned by `extract_stimulations`
carries at least one of proppant mass, volume or formation (in Python
truthiness: present and nonzero/nonempty); a block in which all three
are absent is dropped, in both the block-segmentation pass and the
secondary fallback pass. -/
theorem extract_stimulations_nonempty_invariant (text : List Char) (r : StimRow)
    (hr : r ∈ extract_stimulations text) :
    optTruthyQ r.lbs_proppant = true ∨ optTruthyQ r.volume = true ∨
      optTruthyStr r.stimulated_formation = true := by
  unfold extract_stimulations at hr
  rw [List.mem_append] at hr
  rcases hr with hr | hr
  · rw [List.mem_filterMap] at hr
    obtain ⟨blk, _, hb⟩ := hr
    exact processBlock_keeps hb
  · exact fallbackRows_keeps _ _ r hr

set_option maxHeartbeats 4000000 in
attribute [local semireducible] Rat.add Rat.mul Rat.inv Rat.sub Rat.ofScientific in
/-- C2 witness: the formation-only document yields a row, and the
invariant instantiated there gives a truthy field. -/
theorem extract_stimulations_nonempty_invariant_witness :
    stimFormationOnlyRow ∈ extract_stimulations stimFormationOnlyText ∧
      (optTruthyQ stimFormationOnlyRow.lbs_proppant = true ∨
        optTruthyQ stimFormationOnlyRow.volume = true ∨
        optTruthyStr stimFormationOnlyRow.stimulated_formation = true) :=
  have hm : stimFormationOnlyRow ∈ extract_stimulations stimFormationOnlyText := by
    decide
  ⟨hm, extract_stimulations_nonempty_invariant stimFormationOnlyText stimFormationOnlyRow hm⟩

/-- C6 (counterexample): a table containing a row with three cells is
not flattened — because its first row has two cells it is folded as a
key/value block (the lookup receives `api_number`) and its text lines
are not the whitespace-joined flattening. -/
theorem tables_wide_row_counterexample :
    (¬(∀ row ∈ kvTableWithWideRow, row.length = 2)) ∧
    (extract_from_tables [kvTableWithWideRow]).2 =
      [((("api_number").data), (("099").data))] ∧
    ¬((extract_from_tables [kvTableWithWideRow]).1 =
      kvTableWithWideRow.map flattenRow) := by
  refine ⟨by decide, by decide, by decide⟩

/-- C6 (amended): `extract_from_tables` classifies a table by its first
row only — a table of at least two rows is folded as a key/value block
exactly when its first row has two cells, is flattened to text lines
otherwise, and a table of fewer than two rows is ignored. -/
theorem extract_from_tables_first_row_classification (t : PyTable) :
    (t.length < 2 → extract_from_tables [t] = ([], [])) ∧
    (∀ row0 rest, t = row0 :: rest → 2 ≤ t.length →
      (row0.length = 2 →
        extract_from_tables [t] = t.foldl kvRowStep ([], [])) ∧
      (¬(row0.length = 2) →
        extract_from_tables [t] = (t.map flattenRow, []))) := by
  constructor
  · intro h
    show tableStep ([], []) t = ([], [])
    unfold tableStep
    rw [if_pos h]
  · intro row0 rest ht h2
    constructor
    · intro hr2
      show tableStep ([], []) t = t.foldl kvRowStep ([], [])
      unfold tableStep
      rw [if_neg (by omega)]
      subst ht
      simp only
      rw [if_pos hr2]
    · intro hr2
      show tableStep ([], []) t = (t.map flattenRow, [])
      unfold tableStep
      rw [if_neg (by omega)]
      subst ht
      simp only
      rw [if_neg hr2]
      simp

/-- C6 (witness): the classification theorem applied to the concrete
two-cell-headed table. -/
theorem extract_from_tables_first_row_classification_witness :
    extract_from_tables [kvTableWithWideRow] =
      kvTableWithWideRow.foldl kvRowStep ([], []) :=
  ((extract_from_tables_first_row_classification kvTableWithWideRow).2
    _ _ rfl (by decide)).1 (by decide)

/-- C7 (counterexample): `normalize_date_to_iso` does not accept the ISO
form unchanged — it splits only on `/`, so `2019-06-01` yields a single
part and the function returns no value. -/
theorem normalize_date_to_iso_rejects_iso :
    normalize_date_to_iso (("2019-06-01").data) = none := by
  decide

/-- C8: the missing-value canonicalizer `normalize_missing` maps every
spelling whose stripped lower-casing is in the case-insensitive set
(empty, n/a, na, null, none, -, --) to the sentinel `N/A` for text
fields. -/
theorem normalize_missing_spellings (s : List Char)
    (h : pyLower (pyStrip s) ∈ missingSet) :
    normalize_missing (.vStr s) (("text").data) = .vStr (("N/A").data) := by
  simp only [normalize_missing]
  rw [if_pos h]
  simp

/-- C8 (witness): the canonicalizer theorem applied to the mixed-case
padded spelling `" N/a "`. -/
theorem normalize_missing_spellings_witness :
    normalize_missing (.vStr ((" N/a ").data)) (("text").data) =
      .vStr (("N/A").data) :=
  normalize_missing_spellings _ (by decide)

theorem mem_foldl_append {α β : Type} {f : β → List α} {l : List β} :
    ∀ {init : List α} {v : α},
      v ∈ l.foldl (fun acc x => acc ++ f x) init → v ∈ init ∨ ∃ x ∈ l, v ∈ f x := by
  induction l with
  | nil =>
    intro init v h
    exact Or.inl h
  | cons b bs ih =>
    intro init v h
    rw [List.foldl_cons] at h
    rcases ih h with h1 | h1
    · rcases List.mem_append.mp h1 with h2 | h2
      · exact Or.inl h2
      · exact Or.inr ⟨b, List.mem_cons_self b bs, h2⟩
    · rcases h1 with ⟨x, hx, hv⟩
      exact Or.inr ⟨x, List.mem_cons_of_mem b hx, hv⟩

theorem round6_in_box {d lo hi : ℚ} (hlo : lo ≤ d) (hhi : d ≤ hi)
    (hl : lo * 1000000 = ((⌊lo * 1000000⌋ : ℤ) : ℚ))
    (hh : hi * 1000000 = ((⌊hi * 1000000⌋ : ℤ) : ℚ)) :
    lo ≤ pyRound6 d ∧ pyRound6 d ≤ hi :=
  ⟨pyRound6_ge_of_ge hlo hl, pyRound6_le_of_le hhi hh⟩

theorem intLike_90 : (90 : ℚ) * 1000000 = ((⌊(90 : ℚ) * 1000000⌋ : ℤ) : ℚ) := by
  have h : ((90 : ℚ) * 1000000) = ((90000000 : ℤ) : ℚ) := by norm_num
  rw [h, Int.floor_intCast]

theorem intLike_n90 : (-90 : ℚ) * 1000000 = ((⌊(-90 : ℚ) * 1000000⌋ : ℤ) : ℚ) := by
  have h : ((-90 : ℚ) * 1000000) = ((-90000000 : ℤ) : ℚ) := by norm_num
  rw [h, Int.floor_intCast]

theorem intLike_180 : (180 : ℚ) * 1000000 = ((⌊(180 : ℚ) * 1000000⌋ : ℤ) : ℚ) := by
  have h : ((180 : ℚ) * 1000000) = ((180000000 : ℤ) : ℚ) := by norm_num
  rw [h, Int.floor_intCast]

theorem intLike_n180 : (-180 : ℚ) * 1000000 = ((⌊(-180 : ℚ) * 1000000⌋ : ℤ) : ℚ) := by
  have h : ((-180 : ℚ) * 1000000) = ((-180000000 : ℤ) : ℚ) := by norm_num
  rw [h, Int.floor_intCast]

/-- Every latitude candidate is the rounding of a value admitted inside
the plus-or-minus 90 range. -/
theorem latDmsCand_spec {norm : List Char}
    {p : M (List Char × List Char × List Char)} {v : ℚ}
    (h : v ∈ latDmsCand norm p) :
    ∃ d, -90 ≤ d ∧ d ≤ 90 ∧ v = pyRound6 d := by
  unfold latDmsCand at h
  split at h
  · split at h
    · rename_i dec heq
      split_ifs at h with hc
      · rw [List.mem_singleton] at h
        exact ⟨dec, hc.1, hc.2, h⟩
      · simp at h
    · simp at h
  · simp at h

theorem latDecCand_spec {norm : List Char} {p : M (List Char × List Char)} {v : ℚ}
    (h : v ∈ latDecCand norm p) :
    ∃ d, -90 ≤ d ∧ d ≤ 90 ∧ v = pyRound6 d := by
  unfold latDecCand at h
  rw [List.mem_filterMap] at h
  obtain ⟨g, _, hv⟩ := h
  dsimp only at hv
  split_ifs at hv with hc
  rw [Option.some_inj] at hv
  exact ⟨decValue g.1 g.2 false, hc.1, hc.2, hv.symm⟩

theorem latSurveyCand_spec {text : List Char} {v : ℚ}
    (h : v ∈ latSurveyCand text) :
    ∃ d, -90 ≤ d ∧ d ≤ 90 ∧ v = pyRound6 d := by
  unfold latSurveyCand at h
  split at h
  · rename_i g st heq
    dsimp only at h
    split_ifs at h with hc
    · rw [List.mem_singleton] at h
      obtain ⟨hc1, hc2⟩ := hc
      simp only [latMinDefault, latMaxDefault] at hc1 hc2
      exact ⟨_, hc1, hc2, h⟩
    · simp at h
  · simp at h

theorem latCandidates_spec {text : List Char} {v : ℚ}
    (h : v ∈ latCandidates text) :
    ∃ d, -90 ≤ d ∧ d ≤ 90 ∧ v = pyRound6 d := by
  unfold latCandidates at h
  rcases List.mem_append.mp h with h1 | h1
  · rcases List.mem_append.mp h1 with h2 | h2
    · rcases mem_foldl_append h2 with h3 | h3
      · simp at h3
      · obtain ⟨p, _, hv⟩ := h3
        exact latDmsCand_spec hv
    · rcases mem_foldl_append h2 with h3 | h3
      · simp at h3
      · obtain ⟨p, _, hv⟩ := h3
        exact latDecCand_spec hv
  · exact latSurveyCand_spec h1

/-- Every longitude candidate is the rounding of a value admitted inside
the plus-or-minus 180 range. -/
theorem lonDmsCand_spec {norm : List Char}
    {p : M (List Char × List Char × List Char)} {v : ℚ}
    (h : v ∈ lonDmsCand norm p) :
    ∃ d, -180 ≤ d ∧ d ≤ 180 ∧ v = pyRound6 d := by
  unfold lonDmsCand at h
  split at h
  · split_ifs at h with hdeg
    · simp at h
    · split at h
      · rename_i dec0 heq
        split_ifs at h with hc
        · rw [List.mem_singleton] at h
          exact ⟨forceNeg dec0, hc.1, hc.2, h⟩
        · simp at h
      · simp at h
  · simp at h

theorem lonDecCand_spec {norm : List Char}
    {p : M (Bool × List Char × List Char)} {v : ℚ}
    (h : v ∈ lonDecCand norm p) :
    ∃ d, -180 ≤ d ∧ d ≤ 180 ∧ v = pyRound6 d := by
  unfold lonDecCand at h
  rw [List.mem_filterMap] at h
  obtain ⟨g, _, hv⟩ := h
  split_ifs at hv with hc
  rw [Option.some_inj] at hv
  exact ⟨forceNeg (decValue g.2.1 g.2.2 g.1), hc.1, hc.2, hv.symm⟩

theorem lonSurveyCand_spec {text : List Char} {v : ℚ}
    (h : v ∈ lonSurveyCand text) :
    ∃ d, -180 ≤ d ∧ d ≤ 180 ∧ v = pyRound6 d := by
  unfold lonSurveyCand at h
  split at h
  · rename_i g st heq
    dsimp only at h
    split_ifs at h with hc
    · rw [List.mem_singleton] at h
      obtain ⟨hc1, hc2⟩ := hc
      simp only [lonAbsMinDefault, lonAbsMaxDefault] at hc1 hc2
      refine ⟨-(decValue g.1 g.2 false), by linarith, by linarith, h⟩
    · simp at h
  · simp at h

theorem lonCandidates_spec {text : List Char} {v : ℚ}
    (h : v ∈ lonCandidates text) :
    ∃ d, -180 ≤ d ∧ d ≤ 180 ∧ v = pyRound6 d := by
  unfold lonCandidates at h
  rcases List.mem_append.mp h with h1 | h1
  · rcases List.mem_append.mp h1 with h2 | h2
    · rcases mem_foldl_append h2 with h3 | h3
      · simp at h3
      · obtain ⟨p, _, hv⟩ := h3
        exact lonDmsCand_spec hv
    · rcases mem_foldl_append h2 with h3 | h3
      · simp at h3
      · obtain ⟨p, _, hv⟩ := h3
        exact lonDecCand_spec hv
  · exact lonSurveyCand_spec h1

theorem firstSome_mem {α : Type} {l : List (Option α)} {v : α}
    (h : firstSome l = some v) : some v ∈ l := by
  induction l with
  | nil => simp [firstSome] at h
  | cons x xs ih =>
    match x with
    | some a =>
      rw [firstSome] at h
      rw [h]
      exact List.mem_cons_self _ _
    | none =>
      rw [firstSome] at h
      exact List.mem_cons_of_mem _ (ih h)

/-- Groups captured by the first API pattern are 2, 3 and 5 digits. -/
theorem apiPat1_groups {g1 g2 g3 : List Char} {s s' : St}
    (h : ((g1, g2, g3), s') ∈ apiPat1 s) :
    (g1.length = 2 ∧ ∀ c ∈ g1, pyDigit c = true) ∧
    (g2.length = 3 ∧ ∀ c ∈ g2, pyDigit c = true) ∧
    (g3.length = 5 ∧ ∀ c ∈ g3, pyDigit c = true) := by
  simp only [apiPat1, bind_def, pure_def, mem_mbind, mem_mret] at h
  obtain ⟨_, s1, _, h⟩ := h
  obtain ⟨_, s2, _, h⟩ := h
  obtain ⟨_, s3, _, h⟩ := h
  obtain ⟨a1, s4, ha1, h⟩ := h
  obtain ⟨_, s5, _, h⟩ := h
  obtain ⟨a2, s6, ha2, h⟩ := h
  obtain ⟨_, s7, _, h⟩ := h
  obtain ⟨a3, s8, ha3, h⟩ := h
  obtain ⟨_, s9, _, h⟩ := h
  have e1 : g1 = a1 := congrArg (fun x => x.1.1) h
  have e2 : g2 = a2 := congrArg (fun x => x.1.2.1) h
  have e3 : g3 = a3 := congrArg (fun x => x.1.2.2) h
  subst e1; subst e2; subst e3
  exact ⟨mem_mtake ha1, mem_mtake ha2, mem_mtake ha3⟩

theorem apiPat2_groups {g1 g2 g3 : List Char} {s s' : St}
    (h : ((g1, g2, g3), s') ∈ apiPat2 s) :
    (g1.length = 2 ∧ ∀ c ∈ g1, pyDigit c = true) ∧
    (g2.length = 3 ∧ ∀ c ∈ g2, pyDigit c = true) ∧
    (g3.length = 5 ∧ ∀ c ∈ g3, pyDigit c = true) := by
  simp only [apiPat2, bind_def, pure_def, mem_mbind, mem_mret] at h
  obtain ⟨_, s1, _, h⟩ := h
  obtain ⟨_, s2, _, h⟩ := h
  obtain ⟨_, s3, _, h⟩ := h
  obtain ⟨_, s4, _, h⟩ := h
  obtain ⟨a1, s5, ha1, h⟩ := h
  obtain ⟨_, s6, _, h⟩ := h
  obtain ⟨a2, s7, ha2, h⟩ := h
  obtain ⟨_, s8, _, h⟩ := h
  obtain ⟨a3, s9, ha3, h⟩ := h
  have e1 : g1 = a1 := congrArg (fun x => x.1.1) h
  have e2 : g2 = a2 := congrArg (fun x => x.1.2.1) h
  have e3 : g3 = a3 := congrArg (fun x => x.1.2.2) h
  subst e1; subst e2; subst e3
  exact ⟨mem_mtake ha1, mem_mtake ha2, mem_mtake ha3⟩

theorem apiPat3_groups {g1 g2 g3 : List Char} {s s' : St}
    (h : ((g1, g2, g3), s') ∈ apiPat3 s) :
    (g1.length = 2 ∧ ∀ c ∈ g1, pyDigit c = true) ∧
    (g2.length = 3 ∧ ∀ c ∈ g2, pyDigit c = true) ∧
    (g3.length = 5 ∧ ∀ c ∈ g3, pyDigit c = true) := by
  simp only [apiPat3, bind_def, pure_def, mem_mbind, mem_mret] at h
  obtain ⟨_, s1, _, h⟩ := h
  obtain ⟨_, s2, _, h⟩ := h
  obtain ⟨_, s3, _, h⟩ := h
  obtain ⟨_, s4, _, h⟩ := h
  obtain ⟨a1, s5, ha1, h⟩ := h
  obtain ⟨_, s6, _, h⟩ := h
  obtain ⟨a2, s7, ha2, h⟩ := h
  obtain ⟨_, s8, _, h⟩ := h
  obtain ⟨a3, s9, ha3, h⟩ := h
  have e1 : g1 = a1 := congrArg (fun x => x.1.1) h
  have e2 : g2 = a2 := congrArg (fun x => x.1.2.1) h
  have e3 : g3 = a3 := congrArg (fun x => x.1.2.2) h
  subst e1; subst e2; subst e3
  exact ⟨mem_mtake ha1, mem_mtake ha2, mem_mtake ha3⟩

theorem apiPat4_groups {g1 g2 g3 : List Char} {s s' : St}
    (h : ((g1, g2, g3), s') ∈ apiPat4 s) :
    (g1.length = 2 ∧ ∀ c ∈ g1, pyDigit c = true) ∧
    (g2.length = 3 ∧ ∀ c ∈ g2, pyDigit c = true) ∧
    (g3.length = 5 ∧ ∀ c ∈ g3, pyDigit c = true) := by
  simp only [apiPat4, bind_def, pure_def, mem_mbind, mem_mret] at h
  obtain ⟨_, s1, _, h⟩ := h
  obtain ⟨_, s2, _, h⟩ := h
  obtain ⟨_, s3, _, h⟩ := h
  obtain ⟨_, s4, _, h⟩ := h
  obtain ⟨a1, s5, ha1, h⟩ := h
  obtain ⟨_, s6, _, h⟩ := h
  obtain ⟨a2, s7, ha2, h⟩ := h
  obtain ⟨_, s8, _, h⟩ := h
  obtain ⟨a3, s9, ha3, h⟩ := h
  have e1 : g1 = a1 := congrArg (fun x => x.1.1) h
  have e2 : g2 = a2 := congrArg (fun x => x.1.2.1) h
  have e3 : g3 = a3 := congrArg (fun x => x.1.2.2) h
  subst e1; subst e2; subst e3
  exact ⟨mem_mtake ha1, mem_mtake ha2, mem_mtake ha3⟩

theorem apiPat5_groups {g1 g2 g3 : List Char} {s s' : St}
    (h : ((g1, g2, g3), s') ∈ apiPat5 s) :
    (g1.length = 2 ∧ ∀ c ∈ g1, pyDigit c = true) ∧
    (g2.length = 3 ∧ ∀ c ∈ g2, pyDigit c = true) ∧
    (g3.length = 5 ∧ ∀ c ∈ g3, pyDigit c = true) := by
  simp only [apiPat5, bind_def, pure_def, mem_mbind, mem_mret] at h
  obtain ⟨_, s1, _, h⟩ := h
  obtain ⟨_, s2, _, h⟩ := h
  obtain ⟨_, s3, _, h⟩ := h
  obtain ⟨_, s3b, _, h⟩ := h
  obtain ⟨a1, s4, ha1, h⟩ := h
  obtain ⟨_, s5, _, h⟩ := h
  obtain ⟨a2, s6, ha2, h⟩ := h
  obtain ⟨_, s7, _, h⟩ := h
  obtain ⟨a3, s8, ha3, h⟩ := h
  obtain ⟨_, s9, _, h⟩ := h
  have e1 : g1 = a1 := congrArg (fun x => x.1.1) h
  have e2 : g2 = a2 := congrArg (fun x => x.1.2.1) h
  have e3 : g3 = a3 := congrArg (fun x => x.1.2.2) h
  subst e1; subst e2; subst e3
  exact ⟨mem_mtake ha1, mem_mtake ha2, mem_mtake ha3⟩

/-- The capture of the raw-digit pattern is 10 or 11 digits. -/
theorem apiPat6_group {raw : List Char} {s s' : St}
    (h : (raw, s') ∈ apiPat6 s) :
    (raw.length = 10 ∨ raw.length = 11) ∧ ∀ c ∈ raw, pyDigit c = true := by
  simp only [apiPat6, bind_def, pure_def, mem_mbind, mem_mret] at h
  obtain ⟨_, s1, _, h⟩ := h
  obtain ⟨_, s2, _, h⟩ := h
  obtain ⟨_, s3, _, h⟩ := h
  obtain ⟨_, s4, _, h⟩ := h
  obtain ⟨a, s5, ha, h⟩ := h
  obtain ⟨_, s6, _, h⟩ := h
  have e1 : raw = a := congrArg (fun x => x.1) h
  subst e1
  obtain ⟨hlo, hhi, hd⟩ := mem_mrange ha
  exact ⟨by omega, hd⟩

theorem apiSpacePat_groups {g2 g3 : List Char} {s s' : St}
    (h : ((g2, g3), s') ∈ apiSpacePat s) :
    (g2.length = 3 ∧ ∀ c ∈ g2, pyDigit c = true) ∧
    (g3.length = 5 ∧ ∀ c ∈ g3, pyDigit c = true) := by
  simp only [apiSpacePat, bind_def, pure_def, mem_mbind, mem_mret] at h
  obtain ⟨_, s1, _, h⟩ := h
  obtain ⟨_, s2, _, h⟩ := h
  obtain ⟨_, s3, _, h⟩ := h
  obtain ⟨a2, s4, ha2, h⟩ := h
  obtain ⟨_, s5, _, h⟩ := h
  obtain ⟨a3, s6, ha3, h⟩ := h
  obtain ⟨_, s7, _, h⟩ := h
  have e2 : g2 = a2 := congrArg (fun x => x.1.1) h
  have e3 : g3 = a3 := congrArg (fun x => x.1.2) h
  subst e2; subst e3
  exact ⟨mem_mtake ha2, mem_mtake ha3⟩

theorem apiLoosePat_groups {g1 g2 g3 : List Char} {s s' : St}
    (h : ((g1, g2, g3), s') ∈ apiLoosePat s) :
    (g1.length = 2 ∧ ∀ c ∈ g1, pyDigit c = true) ∧
    (g2.length = 3 ∧ ∀ c ∈ g2, pyDigit c = true) ∧
    (g3.length = 5 ∧ ∀ c ∈ g3, pyDigit c = true) := by
  simp only [apiLoosePat, bind_def, pure_def, mem_mbind, mem_mret] at h
  obtain ⟨a1, s1, ha1, h⟩ := h
  obtain ⟨_, s2, _, h⟩ := h
  obtain ⟨a2, s3, ha2, h⟩ := h
  obtain ⟨_, s4, _, h⟩ := h
  obtain ⟨a3, s5, ha3, h⟩ := h
  obtain ⟨_, s6, _, h⟩ := h
  have e1 : g1 = a1 := congrArg (fun x => x.1.1) h
  have e2 : g2 = a2 := congrArg (fun x => x.1.2.1) h
  have e3 : g3 = a3 := congrArg (fun x => x.1.2.2) h
  subst e1; subst e2; subst e3
  exact ⟨mem_mtake ha1, mem_mtake ha2, mem_mtake ha3⟩

/-- Every value produced by the six-pattern cascade on a region matches
the identifier shape. -/
theorem apiFromRegion_shape {region v : List Char}
    (h : apiFromRegion region = some v) : apiShape v = true := by
  unfold apiFromRegion at h
  split at h
  · rename_i g st heq
    obtain ⟨g1, g2, g3⟩ := g
    rw [Option.some_inj] at h
    subst h
    obtain ⟨s₁, hm⟩ := research_spec heq
    obtain ⟨⟨l1, d1⟩, ⟨l2, d2⟩, ⟨l3, d3⟩⟩ := apiPat1_groups hm
    exact apiShape_fmt3 l1 d1 l2 d2 l3 d3
  · split at h
    · rename_i g st heq
      obtain ⟨g1, g2, g3⟩ := g
      rw [Option.some_inj] at h
      subst h
      obtain ⟨s₁, hm⟩ := research_spec heq
      obtain ⟨⟨l1, d1⟩, ⟨l2, d2⟩, ⟨l3, d3⟩⟩ := apiPat2_groups hm
      exact apiShape_fmt3 l1 d1 l2 d2 l3 d3
    · split at h
      · rename_i g st heq
        obtain ⟨g1, g2, g3⟩ := g
        rw [Option.some_inj] at h
        subst h
        obtain ⟨s₁, hm⟩ := research_spec heq
        obtain ⟨⟨l1, d1⟩, ⟨l2, d2⟩, ⟨l3, d3⟩⟩ := apiPat3_groups hm
        exact apiShape_fmt3 l1 d1 l2 d2 l3 d3
      · split at h
        · rename_i g st heq
          obtain ⟨g1, g2, g3⟩ := g
          rw [Option.some_inj] at h
          subst h
          obtain ⟨s₁, hm⟩ := research_spec heq
          obtain ⟨⟨l1, d1⟩, ⟨l2, d2⟩, ⟨l3, d3⟩⟩ := apiPat4_groups hm
          exact apiShape_fmt3 l1 d1 l2 d2 l3 d3
        · split at h
          · rename_i g st heq
            obtain ⟨g1, g2, g3⟩ := g
            rw [Option.some_inj] at h
            subst h
            obtain ⟨s₁, hm⟩ := research_spec heq
            obtain ⟨⟨l1, d1⟩, ⟨l2, d2⟩, ⟨l3, d3⟩⟩ := apiPat5_groups hm
            exact apiShape_fmt3 l1 d1 l2 d2 l3 d3
          · split at h
            · rename_i raw st heq
              rw [Option.some_inj] at h
              subst h
              obtain ⟨s₁, hm⟩ := research_spec heq
              obtain ⟨hl, hd⟩ := apiPat6_group hm
              exact formatRawApi_shape hd hl
            · exact absurd h (by simp)

/-- C1 (amended): every identifier produced by the `extract_api`
cascade matches `\d{2}-\d{3}-\d{5}`; identifiers backfilled verbatim
from table key/value pairs are not reformatted and carry no such
guarantee. -/
theorem extract_api_shape (text v : List Char)
    (h : extract_api text = some v) : apiShape v = true := by
  unfold extract_api at h
  split at h
  · rename_i w hw
    rw [Option.some_inj] at h
    subst h
    have hmem := firstSome_mem hw
    rw [List.mem_map] at hmem
    obtain ⟨r, _, hr⟩ := hmem
    exact apiFromRegion_shape hr
  · split at h
    · rename_i g st heq
      obtain ⟨g2, g3⟩ := g
      rw [Option.some_inj] at h
      subst h
      obtain ⟨s₁, hm⟩ := research_spec heq
      obtain ⟨⟨l2, d2⟩, ⟨l3, d3⟩⟩ := apiSpacePat_groups hm
      exact apiShape_fmt3 rfl (by decide) l2 d2 l3 d3
    · split at h
      · rename_i g st heq
        obtain ⟨g1, g2, g3⟩ := g
        rw [Option.some_inj] at h
        subst h
        obtain ⟨s₁, hm⟩ := research_spec heq
        obtain ⟨⟨l1, d1⟩, ⟨l2, d2⟩, ⟨l3, d3⟩⟩ := apiLoosePat_groups hm
        exact apiShape_fmt3 l1 d1 l2 d2 l3 d3
      · exact absurd h (by simp)

/-- C1 (witness): the cascade theorem applied to a text carrying the
spec scenario identifier. -/
theorem extract_api_shape_witness :
    extract_api (("well API # 33-053-06755 end").data) =
      some (("33-053-06755").data) ∧
    apiShape (("33-053-06755").data) = true :=
  ⟨by decide, extract_api_shape (("well API # 33-053-06755 end").data)
    (("33-053-06755").data) (by decide)⟩

/-- C3: at the default configuration, every value returned by
`extract_latitude` lies in the plus-or-minus 90 range and every value
returned by `extract_longitude` lies in the plus-or-minus 180 range; and
when no collected candidate satisfies the regional plausibility box, the
extractor returns the first collected candidate (unmodified) rather than
no value. -/
theorem coordinate_range_and_fallback (text : List Char) :
    (∀ v, extract_latitude text = some v → -90 ≤ v ∧ v ≤ 90) ∧
    (∀ v, extract_longitude text = some v → -180 ≤ v ∧ v ≤ 180) ∧
    ((∀ v ∈ latCandidates text, ndLatOk v = false) →
      extract_latitude text = (latCandidates text).head?) ∧
    ((∀ v ∈ lonCandidates text, ndLonOk v = false) →
      extract_longitude text = (lonCandidates text).head?) := by
  refine ⟨?_, ?_, ?_, ?_⟩
  · intro v hv
    unfold extract_latitude at hv
    split at hv
    · rename_i w hw
      rw [Option.some_inj] at hv
      subst hv
      obtain ⟨d, hd1, hd2, hd3⟩ := latCandidates_spec (List.mem_of_find?_eq_some hw)
      rw [hd3]
      exact round6_in_box hd1 hd2 intLike_n90 intLike_90
    · rw [Option.map_eq_some'] at hv
      obtain ⟨h0, hh0, hv'⟩ := hv
      obtain ⟨d, hd1, hd2, hd3⟩ := latCandidates_spec (List.mem_of_mem_head? hh0)
      subst hv'
      rw [hd3, pyRound6_idem]
      exact round6_in_box hd1 hd2 intLike_n90 intLike_90
  · intro v hv
    unfold extract_longitude at hv
    split at hv
    · rename_i w hw
      rw [Option.some_inj] at hv
      subst hv
      obtain ⟨d, hd1, hd2, hd3⟩ := lonCandidates_spec (List.mem_of_find?_eq_some hw)
      rw [hd3]
      exact round6_in_box hd1 hd2 intLike_n180 intLike_180
    · rw [Option.map_eq_some'] at hv
      obtain ⟨h0, hh0, hv'⟩ := hv
      obtain ⟨d, hd1, hd2, hd3⟩ := lonCandidates_spec (List.mem_of_mem_head? hh0)
      subst hv'
      rw [hd3, pyRound6_idem]
      exact round6_in_box hd1 hd2 intLike_n180 intLike_180
  · intro hno
    unfold extract_latitude
    have hfind : (latCandidates text).find? ndLatOk = none :=
      List.find?_eq_none.mpr (fun x hx => by rw [hno x hx]; simp)
    rw [hfind]
    rcases hh : (latCandidates text).head? with _ | h0
    · simp
    · obtain ⟨d, _, _, hd3⟩ := latCandidates_spec (List.mem_of_mem_head? hh)
      simp only [Option.map_some']
      rw [hd3, pyRound6_idem]
  · intro hno
    unfold extract_longitude
    have hfind : (lonCandidates text).find? ndLonOk = none :=
      List.find?_eq_none.mpr (fun x hx => by rw [hno x hx]; simp)
    rw [hfind]
    rcases hh : (lonCandidates text).head? with _ | h0
    · simp
    · obtain ⟨d, _, _, hd3⟩ := lonCandidates_spec (List.mem_of_mem_head? hh)
      simp only [Option.map_some']
      rw [hd3, pyRound6_idem]

set_option maxHeartbeats 2000000 in
attribute [local semireducible] Rat.add Rat.mul Rat.inv Rat.sub Rat.ofScientific in
/-- C3 (witness): on a text whose candidates fall outside the regional
box, the first collected candidate is returned, and the range bounds
hold for the returned values. -/
theorem coordinate_range_and_fallback_witness :
    extract_latitude (("Lat: 12.3456 Long: 22.5678").data) =
      some (12.3456 : ℚ) ∧
    extract_longitude (("Lat: 12.3456 Long: 22.5678").data) =
      some (-(22.5678 : ℚ)) ∧
    (-90 ≤ (12.3456 : ℚ) ∧ (12.3456 : ℚ) ≤ 90) ∧
    (-180 ≤ (-(22.5678 : ℚ)) ∧ (-(22.5678 : ℚ)) ≤ 180) := by
  have h := coordinate_range_and_fallback (("Lat: 12.3456 Long: 22.5678").data)
  have h3 := h.2.2.1 (by decide)
  have h4 := h.2.2.2 (by decide)
  have hlat : extract_latitude (("Lat: 12.3456 Long: 22.5678").data) =
      some (12.3456 : ℚ) := by rw [h3]; decide
  have hlon : extract_longitude (("Lat: 12.3456 Long: 22.5678").data) =
      some (-(22.5678 : ℚ)) := by rw [h4]; decide
  exact ⟨hlat, hlon, h.1 _ hlat, h.2.1 _ hlon⟩

theorem all_ws_of_pyStrip_nil {s : List Char} (h : pyStrip s = []) :
    ∀ c ∈ s, pyWS c = true := by
  intro c hc
  by_contra hw
  exact pyStrip_ne_nil hc (by simpa using hw) h

/-- The glyph-folding maps of `dms_to_decimal` fix whitespace. -/
theorem dms_fold_ws (c : Char) (hc : pyWS c = true) :
    (if (if c = '°' ∨ c = '′' ∨ c = '″' ∨ c = '’' then ' ' else c) = cQuote
      then ' '
      else (if c = '°' ∨ c = '′' ∨ c = '″' ∨ c = '’' then ' ' else c)) = c := by
  simp only [pyWS, Bool.or_eq_true, decide_eq_true_eq] at hc
  rcases hc with ((((rfl | rfl) | rfl) | rfl) | rfl) | rfl <;> decide

/-- A whitespace-only input yields no numeric components. -/
theorem dmsNumerals_nil_of_strip_nil {s : List Char} (h : pyStrip s = []) :
    dmsNumerals s = [] := by
  unfold dmsNumerals
  rw [List.map_map]
  have hm : s.map ((fun c => if c = cQuote then ' ' else c) ∘
      (fun c => if c = '°' ∨ c = '′' ∨ c = '″' ∨ c = '’' then ' ' else c)) = s := by
    conv_rhs => rw [← List.map_id s]
    apply List.map_congr_left
    intro c hc
    exact dms_fold_ws c (all_ws_of_pyStrip_nil h c hc)
  rw [hm, h]
  rfl

/-- C4: `dms_to_decimal` returns no value when fewer than three numeric
components are found or when a minutes or seconds component is at least
60; otherwise it returns the absolute degrees plus minutes over 60 plus
seconds over 3600, rounded to six decimal places, negated exactly when
the degrees component is negative or the upper-cased input contains `W`
or `S`. -/
theorem dms_to_decimal_spec (s : List Char) :
    ((dmsNumerals s).length < 3 → dms_to_decimal s = none) ∧
    (∀ deg mins secs rest, dmsNumerals s = deg :: mins :: secs :: rest →
      ((60 ≤ mins ∨ 60 ≤ secs) → dms_to_decimal s = none) ∧
      (mins < 60 → secs < 60 →
        dms_to_decimal s =
          some (if deg < 0 ∨ containsSub (pyUpper s) [('W' : Char)] ∨
              containsSub (pyUpper s) [('S' : Char)]
            then -(pyRound6 (|deg| + mins / 60 + secs / 3600))
            else pyRound6 (|deg| + mins / 60 + secs / 3600)))) := by
  constructor
  · intro hlen
    unfold dms_to_decimal
    split_ifs with h0
    · rfl
    · rcases hn : dmsNumerals s with _ | ⟨a, _ | ⟨b, _ | ⟨c, rest⟩⟩⟩
      · rfl
      · rfl
      · rfl
      · rw [hn] at hlen
        simp only [List.length_cons] at hlen
        omega
  · intro deg mins secs rest hn
    by_cases h0 : pyStrip s = []
    · rw [dmsNumerals_nil_of_strip_nil h0] at hn
      simp at hn
    · constructor
      · intro hout
        unfold dms_to_decimal
        rw [if_neg h0, hn]
        simp only
        rw [if_pos hout]
      · intro hm hs
        unfold dms_to_decimal
        rw [if_neg h0, hn]
        simp only
        rw [if_neg (by push_neg; exact ⟨hm, hs⟩)]
        rw [apply_ite pyRound6, pyRound6_neg]

set_option maxHeartbeats 1000000 in
attribute [local semireducible] Rat.add Rat.mul Rat.inv Rat.sub Rat.ofScientific in
/-- C4 (witness): the converter theorem applied to `47 30 12.5 W` — the
hemisphere marker negates the rounded value. -/
theorem dms_to_decimal_spec_witness :
    dms_to_decimal (("47 30 12.5 W").data) = some (-(2968967/62500 : ℚ)) := by
  have h := ((dms_to_decimal_spec (("47 30 12.5 W").data)).2
    47 30 (25/2) [] (by decide)).2 (by norm_num) (by norm_num)
  rw [h]
  decide

/-- C10: the raw-digit branch of `extract_api` — on an 11-digit capture
that does not begin with `33` it returns the first ten digits formatted
(the eleventh digit is discarded, so the result coincides with the
branch on the ten-digit truncation); and on every 10- or 11-digit
capture the branch yields a value matching `\d{2}-\d{3}-\d{5}`. -/
theorem raw_api_branch_spec (raw : List Char)
    (hd : ∀ c ∈ raw, pyDigit c = true) :
    (raw.length = 11 → ¬(raw.take 2 = ['3', '3']) →
      formatRawApi raw = formatRawApi (raw.take 10)) ∧
    (raw.length = 10 ∨ raw.length = 11 →
      apiShape (formatRawApi raw) = true) := by
  constructor
  · intro h11 h33
    have hL : formatRawApi raw =
        fmt3 (raw.take 2) ((raw.drop 2).take 3) ((raw.drop 5).take 5) := by
      unfold formatRawApi
      rw [if_neg (by omega), if_neg (by intro hc; exact h33 hc.2),
        if_pos (by omega)]
    have hR : formatRawApi (raw.take 10) =
        fmt3 ((raw.take 10).take 2) (((raw.take 10).drop 2).take 3)
          (((raw.take 10).drop 5).take 5) := by
      unfold formatRawApi
      rw [if_pos (by simp [List.length_take]; omega)]
    rw [hL, hR]
    rw [List.take_take, List.drop_take, List.take_take,
      List.drop_take, List.take_take]
    norm_num
  · intro hl
    exact formatRawApi_shape hd hl

/-- C10 (witness): the raw-digit branch theorem applied to the concrete
11-digit capture `12345678901`. -/
theorem raw_api_branch_spec_witness :
    formatRawApi (("12345678901").data) =
      formatRawApi ((("12345678901").data).take 10) ∧
    apiShape (formatRawApi (("12345678901").data)) = true := by
  have h := raw_api_branch_spec (("12345678901").data) (by decide)
  exact ⟨h.1 (by decide) (by decide), h.2 (Or.inr (by decide))⟩

/-- C9: `"02/03/25"` at the default two-digit-year cutoff 50 is pivoted
to 2025 and normalized to `2025-02-03`; both `(month, day)` orderings
are calendar-valid, and the `(2, 3)` interpretation wins because the
month/day order is tried first. -/
theorem date_ambiguity_scenario :
    normalize_date_to_iso (("02/03/25").data) = some (("2025-02-03").data) ∧
    tryMonthDay 2025 2 3 = some (("2025-02-03").data) ∧
    tryMonthDay 2025 3 2 = some (("2025-03-02").data) := by
  refine ⟨by decide, by decide, by decide⟩


/-- A character-class step consumes exactly its character. -/
theorem mem_mcls_rest {f : Char → Bool} {s : St} {c : Char} {s' : St}
    (h : (c, s') ∈ mcls f s) : s.rest = c :: s'.rest := by
  unfold mcls at h
  rcases s with ⟨l, r⟩
  cases r with
  | nil => simp at h
  | cons d ds =>
    simp only at h
    split at h
    · rw [List.mem_singleton, Prod.mk.injEq] at h
      obtain ⟨h1, h2⟩ := h
      subst h1; subst h2
      rfl
    · simp at h

/-- A literal-character step consumes exactly that character. -/
theorem mem_mch_rest {c : Char} {s s' : St} (h : ((), s') ∈ mch c s) :
    s.rest = c :: s'.rest := by
  unfold mch at h
  rw [mem_mmap] at h
  obtain ⟨d, hd, _⟩ := h
  have he : d = c := by simpa using mem_mcls hd
  subst he
  exact mem_mcls_rest hd

/-- `mtake` consumes exactly the characters it returns. -/
theorem mem_mtake_rest {f : Char → Bool} {n : Nat} :
    ∀ {s : St} {g : List Char} {s' : St}, (g, s') ∈ mtake f n s →
      s.rest = g ++ s'.rest := by
  induction n with
  | zero =>
    intro s g s' h
    rw [mtake, mem_mret, Prod.mk.injEq] at h
    obtain ⟨h1, h2⟩ := h
    subst h1; subst h2; simp
  | succ k ih =>
    intro s g s' h
    rw [mtake, mem_mbind] at h
    obtain ⟨c, s₁, hc, h⟩ := h
    rw [mem_mmap] at h
    obtain ⟨g0, hg0, hge⟩ := h
    subst hge
    rw [mem_mcls_rest hc, ih hg0]
    simp

/-- `$` consumes nothing and holds only at the end or before a final
newline. -/
theorem mem_mEnd {s s' : St} (h : ((), s') ∈ mEnd s) :
    s' = s ∧ (s.rest = [] ∨ s.rest = ['\n']) := by
  unfold mEnd at h
  split_ifs at h with hc
  · rw [List.mem_singleton, Prod.mk.injEq] at h
    exact ⟨h.2, hc⟩
  · simp at h

/-- A string accepted by `^\d{4}-\d{2}-\d{2}$` splits into three digit
groups separated by hyphens, with at most a trailing newline. -/
theorem isoShape_decomp {s : List Char} (h : isoShape s = true) :
    ∃ g1 g2 g3 tail, s = g1 ++ '-' :: (g2 ++ '-' :: (g3 ++ tail)) ∧
      g1.length = 4 ∧ (∀ c ∈ g1, pyDigit c = true) ∧
      g2.length = 2 ∧ (∀ c ∈ g2, pyDigit c = true) ∧
      g3.length = 2 ∧ (∀ c ∈ g3, pyDigit c = true) ∧
      (tail = [] ∨ tail = ['\n']) := by
  unfold isoShape at h
  rw [Option.isSome_iff_exists] at h
  obtain ⟨r, hr⟩ := h
  have hm := rematch_spec hr
  rcases r with ⟨u, st⟩
  simp only [isoShapePat, bind_def, pure_def, mem_mbind, mem_mret] at hm
  obtain ⟨g1, s1, h1, hm⟩ := hm
  obtain ⟨_, s2, h2, hm⟩ := hm
  obtain ⟨g2, s3, h3, hm⟩ := hm
  obtain ⟨_, s4, h4, hm⟩ := hm
  obtain ⟨g3, s5, h5, hm⟩ := hm
  obtain ⟨_, hrest⟩ := mem_mEnd hm
  have e1 := mem_mtake_rest h1
  have e2 := mem_mch_rest h2
  have e3 := mem_mtake_rest h3
  have e4 := mem_mch_rest h4
  have e5 := mem_mtake_rest h5
  obtain ⟨hl1, hd1⟩ := mem_mtake h1
  obtain ⟨hl2, hd2⟩ := mem_mtake h3
  obtain ⟨hl3, hd3⟩ := mem_mtake h5
  refine ⟨g1, g2, g3, s5.rest, ?_, hl1, hd1, hl2, hd2, hl3, hd3, hrest⟩
  rw [e2, e3, e4, e5] at e1
  simpa using e1

/-- A digit is not whitespace. -/
theorem pyWS_false_of_digit {c : Char} (h : pyDigit c = true) : pyWS c = false := by
  unfold pyDigit at h
  rw [Bool.and_eq_true, decide_eq_true_eq, decide_eq_true_eq] at h
  obtain ⟨h1, h2⟩ := h
  unfold pyWS
  simp only [Bool.or_eq_false_iff, decide_eq_false_iff_not]
  refine ⟨⟨⟨⟨⟨?_, ?_⟩, ?_⟩, ?_⟩, ?_⟩, ?_⟩ <;> (rintro rfl; revert h1; decide)

/-- `dropWhile` is the identity when the predicate fails everywhere. -/
theorem dropWhile_eq_self_of_all {p : Char → Bool} {l : List Char}
    (h : ∀ c ∈ l, p c = false) : l.dropWhile p = l := by
  cases l with
  | nil => rfl
  | cons c cs =>
    rw [List.dropWhile_cons]
    simp [h c (List.mem_cons_self c cs)]

/-- `str.strip()` is the identity on strings with no whitespace. -/
theorem pyStrip_eq_self {l : List Char} (h : ∀ c ∈ l, pyWS c = false) :
    pyStrip l = l := by
  unfold pyStrip
  rw [dropWhile_eq_self_of_all h,
    dropWhile_eq_self_of_all (fun c hc => h c (List.mem_reverse.mp hc)),
    List.reverse_reverse]

/-- C7 (amended): it is the preprocess normalizer `normalize_date`, not
the core `normalize_date_to_iso`, that accepts a date string already in
ISO form `YYYY-MM-DD` and returns it unchanged. -/
theorem normalize_date_iso_unchanged (s : List Char) (hlen : s.length = 10)
    (hiso : isoShape s = true) :
    normalize_date (PyVal.vStr s) = s := by
  obtain ⟨g1, g2, g3, tail, hs, hl1, hd1, hl2, hd2, hl3, hd3, htail⟩ := isoShape_decomp hiso
  have htail0 : tail = [] := by
    rcases htail with ht | ht
    · exact ht
    · exfalso
      rw [hs, ht] at hlen
      simp [hl1, hl2, hl3, List.length_append] at hlen
  have hnws : ∀ c ∈ s, pyWS c = false := by
    intro c hc
    rw [hs, htail0] at hc
    simp only [List.append_nil, List.mem_append, List.mem_cons] at hc
    rcases hc with hc | hc | hc | hc | hc
    · exact pyWS_false_of_digit (hd1 c hc)
    · subst hc; decide
    · exact pyWS_false_of_digit (hd2 c hc)
    · subst hc; decide
    · exact pyWS_false_of_digit (hd3 c hc)
  have hne : ¬(s = []) := by
    intro h0; rw [h0] at hlen; simp at hlen
  have hstrip : pyStrip s = s := pyStrip_eq_self hnws
  have hlow : ¬(pyLower s ∈ [("n/a").data, ("na").data, ("null").data,
      ("none").data, ("-").data, ("--").data]) := by
    intro hm
    have hl10 : (pyLower s).length = 10 := by simp [pyLower, hlen]
    simp only [List.mem_cons, List.not_mem_nil, or_false] at hm
    rcases hm with hm | hm | hm | hm | hm | hm <;> (rw [hm] at hl10; simp at hl10)
  simp only [normalize_date, hstrip, hne, hlow, hiso, if_true, if_false,
    ite_true, ite_false]

/-- C7 witness: the ISO string `2024-02-29` is returned unchanged. -/
theorem normalize_date_iso_unchanged_witness :
    ("2024-02-29").data.length = 10 ∧ isoShape ("2024-02-29").data = true ∧
      normalize_date (PyVal.vStr ("2024-02-29").data) = ("2024-02-29").data :=
  ⟨by decide, by decide,
    normalize_date_iso_unchanged (("2024-02-29").data) (by decide) (by decide)⟩

end OilWells
